import Mathlib

/-!
# Verification of the acoular HDF5 cache core (`acoular/h5cache.py`)

This file gives a shallow embedding of the cache-file lifecycle and policy
engine of the repository:

* `HDF5Cache.get_cache_file` / `HDF5Cache.close_unreferenced_cachefiles` —
  the pool that opens, shares, reference-counts and closes backing-store
  handles (`CacheSys`, `get_cache_file`, `close_unreferenced_cachefiles`);
* `HDF5Cache._get_bf_filecache` — the beamformer instantiation of the cache
  policy engine (`get_bf_filecache`);
* `CacheObject` — the per-entity cache protocol (`handle_cache`, `no_cache`,
  `get_cache`, `init_cache`, `remove_cache`, `get_nodename`).

The backing-store API (`h5files.py`) is not part of the sources; the handful
of container operations it provides (`is_cached`, `create_new_group`,
`create_compressible_array`, `get_data_by_reference`, `remove_data`) are
modelled from the spec as operations on a hierarchical map of nodes.

Python specifics are modelled as follows: falsy values (`0`, `None`, `""`)
that the source uses in boolean contexts become explicit tests; `dict`
indexing that can raise `KeyError`, unbound local reads and attribute access
on `None` are modelled with `Except`/`Option`; the garbage-collector referrer
scan of `is_reference_existent` (a dict with an `'h5f'` key referring to the
file object, i.e. some object whose `h5f` attribute is the file) is modelled
as "some entity's `h5f` slot holds this file handle".
-/

namespace Acoular

/-- An open backing-store handle as produced by `open_cachefile`: the
`tables.File`-like object.  `handleId` distinguishes distinct `open` events,
`filename` is `get_basename(file)`. -/
structure FileHandle where
  filename : String
  handleId : Nat
  mode : String
deriving DecidableEq, Repr

/-- The pool state of the singleton `HDF5Cache` object together with the
`h5f` slots of the participating entities and the cache directory contents:

* `openFiles` models the `open_files` weak-value dictionary
  (filename-keyed; closed files drop out),
* `nextHandle` is a fresh-handle counter (each `open_cachefile` call yields a
  new handle object),
* `refCount` models the `open_file_reference` dict,
* `h5f` are the per-entity `obj.h5f` slots (entity = list index),
* `disk` models `listdir(cache_dir)`, the files present in the cache
  directory. -/
structure CacheSys where
  openFiles : List FileHandle
  nextHandle : Nat
  refCount : List (String × Int)
  h5f : List (Option FileHandle)
  disk : List String
deriving DecidableEq, Repr

/-- `filename = basename + '_cache.h5'` from `get_cache_file`. -/
def fileNameOf (basename : String) : String := basename ++ "_cache.h5"

/-- The `obj.h5f` slot of entity `e` (missing entities read as unbound). -/
def getBinding (s : CacheSys) (e : Nat) : Option FileHandle :=
  s.h5f.getD e Option.none

/-- Assign `obj.h5f` for entity `e`. -/
def setBinding (s : CacheSys) (e : Nat) (b : Option FileHandle) : CacheSys :=
  { s with h5f := s.h5f.set e b }

/-- `HDF5Cache.get_filename`: the basename of the bound file, or the falsy
`0` — modelled as `""` — when `obj.h5f` is not a file object. -/
def get_filename (b : Option FileHandle) : String :=
  match b with
  | some f => f.filename
  | Option.none => ""

/-- Lookup of `open_files[filename]`. -/
def lookupOpen (s : CacheSys) (fn : String) : Option FileHandle :=
  s.openFiles.find? (fun f => f.filename == fn)

/-- `d.get(k, default)` for the reference-count dict. -/
def dictGetD (rc : List (String × Int)) (k : String) (d : Int) : Int :=
  match rc.find? (fun p => p.1 == k) with
  | some p => p.2
  | Option.none => d

/-- `d[k] = v` on the reference-count dict: replace the entry when the key is
present, append it otherwise. -/
def dictSet (rc : List (String × Int)) (k : String) (v : Int) : List (String × Int) :=
  if rc.any (fun p => p.1 == k) then
    rc.map (fun p => if p.1 == k then (p.1, v) else p)
  else rc ++ [(k, v)]

/-- `d.pop(k)`: `none` models the `KeyError` raised when the key is absent. -/
def dictPop (rc : List (String × Int)) (k : String) : Option (List (String × Int)) :=
  if rc.any (fun p => p.1 == k) then some (rc.filter (fun p => !(p.1 == k)))
  else Option.none

/-- `HDF5Cache._increase_file_reference_counter`:
`open_file_reference[filename] = open_file_reference.get(filename, 0) + 1`. -/
def increaseRef (rc : List (String × Int)) (k : String) : List (String × Int) :=
  dictSet rc k (dictGetD rc k 0 + 1)

/-- `HDF5Cache._decrease_file_reference_counter`:
`open_file_reference[filename] = open_file_reference[filename] - 1`; direct
indexing, so a missing key is a `KeyError` (`none`). -/
def decreaseRef (rc : List (String × Int)) (k : String) : Option (List (String × Int)) :=
  match rc.find? (fun p => p.1 == k) with
  | some p => some (dictSet rc k (p.2 - 1))
  | Option.none => Option.none

/-- `HDF5Cache.is_reference_existent`: the garbage-collector referrer scan
succeeds exactly when some object's `h5f` attribute holds the file object,
i.e. some entity slot contains this handle. -/
def referenced (bindings : List (Option FileHandle)) (f : FileHandle) : Bool :=
  bindings.any (fun b => b == some f)

/-- Does a `h5f` slot hold a handle on filename `fn`? -/
def slotMatches (b : Option FileHandle) (fn : String) : Bool :=
  b.any (fun f => f.filename == fn)

/-- Number of entity slots currently bound to filename `fn`. -/
def bindCount (bindings : List (Option FileHandle)) (fn : String) : Nat :=
  (bindings.filter (fun b => slotMatches b fn)).length

/-- Errors a cache call can raise. -/
inductive CacheErr
  | keyError
  | attributeError
  | unboundLocalError
  | noSuchNode
deriving DecidableEq, Repr

/-- `HDF5Cache.open_cachefile` plus the pool insertion
`open_files[filename] = f`: a fresh handle is created; opening in append
mode creates the file in the cache directory when it is absent. -/
def openCachefile (s : CacheSys) (filename mode : String) : CacheSys :=
  { s with
    openFiles := s.openFiles ++ [⟨filename, s.nextHandle, mode⟩]
    nextHandle := s.nextHandle + 1
    disk := if filename ∈ s.disk then s.disk else s.disk ++ [filename] }

/-- One pass of the loop body of `close_unreferenced_cachefiles` over the
snapshot `fs` of open files: every file with no referrer is closed via
`close_cachefile`, which pops its `open_file_reference` entry (a `KeyError`
when absent) and drops the handle from the pool. -/
def sweepGo (fs : List FileHandle) (s : CacheSys) : Option CacheSys :=
  match fs with
  | [] => some s
  | f :: rest =>
    if referenced s.h5f f then sweepGo rest s
    else
      match dictPop s.refCount f.filename with
      | some rc =>
        sweepGo rest
          { s with refCount := rc, openFiles := s.openFiles.filter (fun g => !(g == f)) }
      | Option.none => Option.none

/-- `HDF5Cache.close_unreferenced_cachefiles`. -/
def close_unreferenced_cachefiles (s : CacheSys) : Option CacheSys :=
  sweepGo s.openFiles s

/-- Lines 126–133 of `get_cache_file`: `obj.h5f = open_files[filename]`,
increase the reference counter, then run the sweep. -/
def finishBind (e : Nat) (filename : String) (s : CacheSys) : Except CacheErr CacheSys :=
  match lookupOpen s filename with
  | Option.none => Except.error CacheErr.keyError
  | some f =>
    let s3 := setBinding s e (some f)
    let s4 := { s3 with refCount := increaseRef s3.refCount filename }
    match close_unreferenced_cachefiles s4 with
    | some s5 => Except.ok s5
    | Option.none => Except.error CacheErr.keyError

/-- `HDF5Cache.get_cache_file(obj, basename, mode='a')` under the global
caching mode `cfg` (the value of `config.global_caching`):

1. when the entity is already bound to `filename`, return unchanged;
2. when it is bound to a different file, decrease that file's counter;
3. when `filename` is not pooled: in readonly mode with the file absent from
   the cache directory, clear `obj.h5f` and return; otherwise open it
   (read-only mode forces mode `'r'`);
4. bind the entity, increase the counter and sweep unreferenced files. -/
def get_cache_file (cfg : String) (e : Nat) (basename mode : String)
    (s : CacheSys) : Except CacheErr CacheSys :=
  -- `filename = basename + '_cache.h5'`; `obj_filename = self.get_filename(obj.h5f)`
  -- `if obj_filename: if obj_filename == filename: return`
  if get_filename (getBinding s e) ≠ "" ∧
      get_filename (getBinding s e) = fileNameOf basename then
    Except.ok s
  else
    -- `if obj_filename: ... self._decrease_file_reference_counter(obj_filename)`
    match (if get_filename (getBinding s e) ≠ "" then
            match decreaseRef s.refCount (get_filename (getBinding s e)) with
            | some rc => Except.ok { s with refCount := rc }
            | Option.none => Except.error CacheErr.keyError
          else Except.ok s) with
    | Except.error er => Except.error er
    | Except.ok s1 =>
      -- `if filename not in self.open_files:`
      if (lookupOpen s1 (fileNameOf basename)).isSome then
        finishBind e (fileNameOf basename) s1
      -- `if config.global_caching == 'readonly' and not self.is_cachefile_existent(filename)`
      else if cfg = "readonly" ∧ fileNameOf basename ∉ s1.disk then
        Except.ok (setBinding s1 e Option.none)
      else
        -- `if config.global_caching == 'readonly': mode = 'r'`; open and pool the file
        finishBind e (fileNameOf basename)
          (openCachefile s1 (fileNameOf basename)
            (if cfg = "readonly" then "r" else mode))

/-- One `get_cache_file` call of a sequence. -/
structure PoolOp where
  cfg : String
  entity : Nat
  basename : String
  mode : String
deriving DecidableEq, Repr

/-- A sequence of `get_cache_file` calls. -/
def runOps (ops : List PoolOp) (s : CacheSys) : Except CacheErr CacheSys :=
  match ops with
  | [] => Except.ok s
  | op :: rest =>
    match get_cache_file op.cfg op.entity op.basename op.mode s with
    | Except.ok s' => runOps rest s'
    | Except.error er => Except.error er

/-- Filenames of the pooled open files. -/
def openNames (s : CacheSys) : List String := s.openFiles.map (fun f => f.filename)

/-- Keys of the `open_file_reference` dict. -/
def refKeys (s : CacheSys) : List String := s.refCount.map Prod.fst

/-- A bound `h5f` slot points at a pooled handle. -/
def slotOk (s : CacheSys) (b : Option FileHandle) : Prop :=
  match b with
  | some f => f ∈ s.openFiles
  | Option.none => True

instance (s : CacheSys) (b : Option FileHandle) : Decidable (slotOk s b) :=
  match b with
  | some _ => inferInstanceAs (Decidable (_ ∈ _))
  | Option.none => isTrue trivial

/-- The pool invariant:
* pooled filenames are distinct (at most one handle per filename),
* reference-count keys are distinct,
* every bound handle is pooled,
* pooled filenames and reference-count keys coincide,
* each reference count equals the number of entities bound to the file,
* pooled filenames are never empty (they always carry the `_cache.h5`
  suffix), so `get_filename` of a bound handle is truthy. -/
def Inv (s : CacheSys) : Prop :=
  (openNames s).Nodup ∧
  (refKeys s).Nodup ∧
  (∀ b ∈ s.h5f, slotOk s b) ∧
  (∀ f ∈ s.openFiles, f.filename ∈ refKeys s) ∧
  (∀ p ∈ s.refCount, p.1 ∈ openNames s) ∧
  (∀ p ∈ s.refCount, p.2 = (bindCount s.h5f p.1 : Int)) ∧
  (∀ f ∈ s.openFiles, f.filename ≠ "")

instance (s : CacheSys) : Decidable (Inv s) := by
  unfold Inv
  infer_instance

/-- State of the pool on entry to the tail of `get_cache_file` (after the
optional decrement of the previously bound file's counter, before binding
entity `e` to `filename`): the invariant holds up to the pending rebind —
each count is off by one exactly for the file the entity is still bound to,
and `filename` may not be keyed yet (freshly opened file). -/
def InvPre (u : CacheSys) (e : Nat) (filename : String) : Prop :=
  (openNames u).Nodup ∧
  (refKeys u).Nodup ∧
  (∀ b ∈ u.h5f, slotOk u b) ∧
  (∀ g ∈ u.openFiles, g.filename ∈ refKeys u ∨ g.filename = filename) ∧
  (∀ p ∈ u.refCount, p.1 ∈ openNames u) ∧
  (∀ p ∈ u.refCount,
    p.2 + (if slotMatches (getBinding u e) p.1 then (1 : Int) else 0)
      = (bindCount u.h5f p.1 : Int)) ∧
  (filename ∉ refKeys u → ∀ b ∈ u.h5f, slotMatches b filename = false) ∧
  (∀ f ∈ u.openFiles, f.filename ≠ "")

/-! ### The backing store (`h5files.py` is not under the sources; modelled
from the spec as a hierarchical container of named nodes, each owning named
typed arrays; arrays are zero-initialised on creation) -/

/-- Modelled from the spec: one stored array — shape, dtype tag and flat
contents. -/
structure H5Array where
  shape : List Nat
  dtype : String
  data : List Int
deriving DecidableEq, Repr

/-- Modelled from the spec: a node (group) of the backing file, owning named
arrays. -/
structure H5Node where
  arrays : String → Option H5Array

/-- Modelled from the spec: a backing file — a map from node names to nodes.
(The source addresses nodes as paths `'/' + nodename`; the leading slash is
dropped here, node names are the keys.) -/
structure H5File where
  nodes : String → Option H5Node

/-- Number of elements of an array of the given shape. -/
def shapeSize : List Nat → Nat
  | [] => 1
  | n :: rest => n * shapeSize rest

def emptyNode : H5Node := ⟨fun _ => Option.none⟩

/-- Modelled from the spec: `h5f.is_cached(nodename)` — node existence. -/
def H5File.is_cached (f : H5File) (nd : String) : Bool :=
  (f.nodes nd).isSome

/-- Modelled from the spec: `h5f.create_new_group(nodename)`. -/
def H5File.create_new_group (f : H5File) (nd : String) : H5File :=
  ⟨fun n => if n = nd then some emptyNode else f.nodes n⟩

def H5Node.addArray (node : H5Node) (name : String) (shape : List Nat)
    (dtype : String) : H5Node :=
  ⟨fun a => if a = name then
      some ⟨shape, dtype, List.replicate (shapeSize shape) 0⟩
    else node.arrays a⟩

/-- Modelled from the spec: `h5f.create_compressible_array(name, shape,
precision, group)` — creates a zero-initialised array in the group. -/
def H5File.create_compressible_array (f : H5File) (name : String)
    (shape : List Nat) (dtype : String) (group : String) : H5File :=
  ⟨fun n => if n = group then (f.nodes group).map (fun nd => nd.addArray name shape dtype)
    else f.nodes n⟩

/-- Modelled from the spec: `h5f.remove_data(nodename)` — node deletion. -/
def H5File.remove_data (f : H5File) (nd : String) : H5File :=
  ⟨fun n => if n = nd then Option.none else f.nodes n⟩

/-- A buffer as handed to the caller: a live file-backed array reference, a
detached in-memory copy (`arr[:]`), or a transient numpy array that never
touched a file (`np.zeros(...)`). -/
inductive Buf
  | ref (nodename arrname : String)
  | copy (data : List Int)
  | transient (shape : List Nat) (dtype : String) (data : List Int)
deriving DecidableEq, Repr

/-- Modelled from the spec: `h5f.get_data_by_reference(name, '/' + nodename)`
— a live reference to the stored array, when it exists. -/
def H5File.get_data_by_reference (f : H5File) (name nodename : String) : Option Buf :=
  match f.nodes nodename with
  | some node =>
    if (node.arrays name).isSome then some (Buf.ref nodename name) else Option.none
  | Option.none => Option.none

/-- Contents of a stored array (empty when absent). -/
def H5File.readArr (f : H5File) (nd arrname : String) : List Int :=
  match f.nodes nd with
  | some node =>
    match node.arrays arrname with
    | some a => a.data
    | Option.none => []
  | Option.none => []

/-- `buf[:]`: a detached copy of a file-backed reference (other buffers are
already plain memory). -/
def detachB (f : H5File) (b : Buf) : Buf :=
  match b with
  | Buf.ref nd a => Buf.copy (f.readArr nd a)
  | x => x

/-- Overwrite the contents of a stored array in place (shape and dtype kept). -/
def H5File.writeArr (f : H5File) (nd arrname : String) (newData : List Int) : H5File :=
  ⟨fun n => if n = nd then
      (f.nodes nd).map (fun node =>
        ⟨fun a => if a = arrname then
            (node.arrays arrname).map (fun arr => ⟨arr.shape, arr.dtype, newData⟩)
          else node.arrays a⟩)
    else f.nodes n⟩

/-- Writing through a buffer: a live reference writes back into the file; a
detached copy or a transient array leaves the file untouched. -/
def writeBuf (f : H5File) (b : Buf) (newData : List Int) : H5File :=
  match b with
  | Buf.ref nd a => f.writeArr nd a newData
  | _ => f

/-! ### `HDF5Cache._get_bf_filecache` -/

/-- The `isinstance` class of a beamformer entity: `BeamformerAdaptiveGrid`,
`BeamformerSODIX`, or any other `BeamformerBase`. -/
inductive BfKind
  | adaptiveGrid
  | sodix
  | base
deriving DecidableEq, Repr

/-- The attributes of a `BeamformerBase` entity that `_get_bf_filecache`
reads: class identity and digest, `freq_data.basename`,
`freq_data.fftfreq().shape[0]`, `steer.grid.size`, `steer.mics.num_mics`,
`self.size` (adaptive grid), `precision` and the `cached` opt-in flag. -/
structure BfEntity where
  kind : BfKind
  className : String
  digest : String
  basename : String
  numfreq : Nat
  gridSize : Nat
  numMics : Nat
  size : Nat
  precision : String
  cached : Bool
deriving DecidableEq, Repr

/-- `nodename = bf.__class__.__name__ + bf.digest` (line 142). -/
def bfNodename (bf : BfEntity) : String := bf.className ++ bf.digest

/-- Lines 153–155: `if config.global_caching == 'overwrite' and
bf.h5f.is_cached(nodename): bf.h5f.remove_data(nodename)`. -/
def overwriteStep (cfg : String) (f : H5File) (nodename : String) : H5File :=
  if cfg = "overwrite" ∧ f.is_cached nodename = true then f.remove_data nodename
  else f

/-- Lines 157–178: `if not bf.h5f.is_cached(nodename)`: create the group, the
`freqs` marker array, and the variant-specific arrays (`gpos` and a
grid-sized `result` for adaptive grids, a `grid.size * num_mics` `result` for
SODIX, a `grid.size` `result` otherwise). -/
def allocStep (bf : BfEntity) (f : H5File) (nodename : String) : H5File :=
  if f.is_cached nodename = true then f
  else
    let f1 := f.create_new_group nodename
    let f2 := f1.create_compressible_array "freqs" [bf.numfreq] "int8" nodename
    match bf.kind with
    | BfKind.adaptiveGrid =>
      let f3 := f2.create_compressible_array "gpos" [3, bf.size] "float64" nodename
      f3.create_compressible_array "result" [bf.numfreq, bf.size] bf.precision nodename
    | BfKind.sodix =>
      f2.create_compressible_array "result" [bf.numfreq, bf.gridSize * bf.numMics]
        bf.precision nodename
    | BfKind.base =>
      f2.create_compressible_array "result" [bf.numfreq, bf.gridSize]
        bf.precision nodename

/-- The outcome of `_get_bf_filecache`: the contents of the file bound to
`bf.h5f` (none when bypassed), the buffers assigned to `bf._ac` and `bf._fr`,
and whether `bf._gpos` was assigned. -/
structure BfCacheResult where
  h5f : Option H5File
  ac : Option Buf
  fr : Option Buf
  gposSet : Bool

/-- Line 185 of `_get_bf_filecache`: `if (ac and fr) and
config.global_caching == 'readonly': (ac, fr) = (ac[:], fr[:])` — detach the
returned arrays from the file in read-only mode — then the assignments to
`bf._ac` / `bf._fr`. -/
def get_bf_filecache_finish (cfg : String) (f2 : H5File) (ac fr gpos : Option Buf) :
    Except CacheErr BfCacheResult :=
  if ac.isSome = true ∧ fr.isSome = true ∧ cfg = "readonly" then
    Except.ok ⟨some f2, ac.map (detachB f2), fr.map (detachB f2), gpos.isSome⟩
  else Except.ok ⟨some f2, ac, fr, gpos.isSome⟩

/-- Lines 148–189 of `_get_bf_filecache` for an acquired file `f0`: the
readonly-without-node bypass, the overwrite removal, the allocation on a
miss, and the reference fetches (`gpos` only for adaptive grids). -/
def get_bf_filecache_body (cfg : String) (bf : BfEntity) (f0 : H5File) :
    Except CacheErr BfCacheResult :=
  if cfg = "readonly" ∧ ¬ f0.is_cached (bfNodename bf) = true then
    Except.ok ⟨some f0, Option.none, Option.none, false⟩
  else
    get_bf_filecache_finish cfg
      (allocStep bf (overwriteStep cfg f0 (bfNodename bf)) (bfNodename bf))
      ((allocStep bf (overwriteStep cfg f0 (bfNodename bf))
          (bfNodename bf)).get_data_by_reference "result" (bfNodename bf))
      ((allocStep bf (overwriteStep cfg f0 (bfNodename bf))
          (bfNodename bf)).get_data_by_reference "freqs" (bfNodename bf))
      (if bf.kind = BfKind.adaptiveGrid then
        (allocStep bf (overwriteStep cfg f0 (bfNodename bf))
          (bfNodename bf)).get_data_by_reference "gpos" (bfNodename bf)
      else Option.none)

/-- `HDF5Cache._get_bf_filecache(bf)` under policy mode `cfg`.  `acquired` is
the file delivered by the preceding `H5cache.get_cache_file` call (`none`
when the readonly bypass cleared `bf.h5f`).  When result caching is inactive
(`'none'`, or `'individual'` with the entity opted out) the guarded block is
skipped and line 185 reads the local variable `ac` that was never assigned —
an `UnboundLocalError`. -/
def get_bf_filecache (cfg : String) (bf : BfEntity) (acquired : Option H5File) :
    Except CacheErr BfCacheResult :=
  if ¬ (cfg = "none" ∨ (cfg = "individual" ∧ bf.cached = false)) then
    match acquired with
    | Option.none =>
      -- line 148: `if not bf.h5f ...: bf._ac = None; bf._fr = None; return`
      Except.ok ⟨Option.none, Option.none, Option.none, false⟩
    | some f0 => get_bf_filecache_body cfg bf f0
  else Except.error CacheErr.unboundLocalError

/-! ### `CacheObject` -/

/-- The `isinstance` class of a cache entity in `CacheObject`'s methods. -/
inductive EntityKind
  | beamformerBase
  | pointSpreadFunction
  | generic
deriving DecidableEq, Repr

/-- The attributes of a `CacheObject` entity read by its methods.  The target
frequency of a `PointSpreadFunction` is modelled in hundredths (`freqCenti`),
the fixed-point resolution that `'%.2f'` prints. -/
structure Entity where
  kind : EntityKind
  className : String
  digest : String
  cached : Bool
  freqCenti : Nat
  numfreq : Nat
  gridSize : Nat
  precision : String
  basenameFreqData : String
deriving DecidableEq, Repr

/-- Two fixed fractional digits, zero padded. -/
def twoDigits (n : Nat) : String := (if n < 10 then "0" else "") ++ toString n

/-- `CacheObject._get__nodename`: for a `PointSpreadFunction`,
`('Hz_%.2f' % self.freq).replace('.', '_')` — the fixed-point print of the
frequency (two fractional digits, the decimal point being the only `'.'`)
with the point replaced by an underscore; otherwise
`self.__class__.__name__ + self.digest`. -/
def get_nodename (e : Entity) : String :=
  if e.kind = EntityKind.pointSpreadFunction then
    "Hz_" ++ toString (e.freqCenti / 100) ++ "_" ++ twoDigits (e.freqCenti % 100)
  else e.className ++ e.digest

/-- `CacheObject._get__cache_filename`. -/
def get_cache_filename (e : Entity) : String :=
  if e.kind = EntityKind.beamformerBase then e.basenameFreqData
  else if e.kind = EntityKind.pointSpreadFunction then "psf" ++ e.digest
  else e.className ++ e.digest

/-- In `handle_cache` the source reads the attribute `self.is_cached` without
calling it; `is_cached` is a method, and a bound method object is always
truthy, so every test of the cached state in `handle_cache` is constant. -/
def is_cached_attr_truthy : Bool := true

/-- The cache operations `handle_cache` can invoke, for the call log. -/
inductive CacheAction
  | acquireFile
  | noCache
  | removeCache
  | initCache
  | getCache
deriving DecidableEq, Repr

/-- `CacheObject._no_cache`: transient zero arrays for beamformers and point
spread functions, `None` for any other entity. -/
def no_cache (e : Entity) : Option (Buf × Buf) :=
  if e.kind = EntityKind.beamformerBase ∨ e.kind = EntityKind.pointSpreadFunction then
    some (Buf.transient [e.numfreq, e.gridSize] e.precision
            (List.replicate (e.numfreq * e.gridSize) 0),
          Buf.transient [e.numfreq] "int8" (List.replicate e.numfreq 0))
  else Option.none

/-- `CacheObject._get_cache`: for a `BeamformerBase`, fetch `result`/`freqs`
references (copies under `'readonly'`), `None` otherwise.  Reading the
attributes on `self.h5f = None` is an `AttributeError`; a missing node is a
lookup error.  The attributes `self.nodename` and `self.global_caching` are
not defined in the source class; modelled from the spec: the entity exposes
its derived node name (`default_node_name`) and the process-wide policy
mode. -/
def get_cache (cfg : String) (e : Entity) (h5f : Option H5File) :
    Except CacheErr (Option (Buf × Buf)) :=
  if e.kind = EntityKind.beamformerBase then
    match h5f with
    | Option.none => Except.error CacheErr.attributeError
    | some f =>
      match f.get_data_by_reference "result" (get_nodename e),
            f.get_data_by_reference "freqs" (get_nodename e) with
      | some ac, some fr =>
        if cfg = "readonly" then Except.ok (some (detachB f ac, detachB f fr))
        else Except.ok (some (ac, fr))
      | _, _ => Except.error CacheErr.noSuchNode
  else Except.ok Option.none

/-- `CacheObject._remove_cache`: `if self.h5f:
self.h5f.remove_data(self._nodename)`. -/
def remove_cache (e : Entity) (h5f : Option H5File) : Option H5File :=
  match h5f with
  | some f => some (f.remove_data (get_nodename e))
  | Option.none => Option.none

/-- `CacheObject._init_cache`.  The source reads `self.nodename` (the class
defines only `_nodename`); modelled from the spec as the derived node name.
The point-spread-function branch creates the group a second time, as the
source does. -/
def init_cache (e : Entity) (h5f : Option H5File) : Except CacheErr (Option H5File) :=
  match h5f with
  | Option.none => Except.error CacheErr.attributeError
  | some f =>
    let f1 := f.create_new_group (get_nodename e)
    if e.kind = EntityKind.beamformerBase then
      let f2 := f1.create_compressible_array "freqs" [e.numfreq] "int8" (get_nodename e)
      Except.ok (some (f2.create_compressible_array "result"
        [e.numfreq, e.gridSize] e.precision (get_nodename e)))
    else if e.kind = EntityKind.pointSpreadFunction then
      let f2 := f1.create_new_group (get_nodename e)
      let f3 := f2.create_compressible_array "result"
        [e.gridSize, e.gridSize] e.precision (get_nodename e)
      Except.ok (some (f3.create_compressible_array "gridpts"
        [e.gridSize] "int8" (get_nodename e)))
    else Except.ok (some f1)

/-- Lines 271–273 of `CacheObject.handle_cache`: the allocation branch
(guarded by `not self.is_cached`, the truthy method attribute — so dead) and
the final `return self._get_cache()`. -/
def handle_cache_fetch (cfg : String) (e : Entity) (h5f : Option H5File)
    (log : List CacheAction) :
    Except CacheErr (Option (Buf × Buf) × Option H5File) × List CacheAction :=
  if is_cached_attr_truthy = false ∧ cfg ≠ "readonly" then
    match init_cache e h5f with
    | Except.error er => (Except.error er, log ++ [CacheAction.initCache])
    | Except.ok h5f2 =>
      match get_cache cfg e h5f2 with
      | Except.error er =>
        (Except.error er, log ++ [CacheAction.initCache, CacheAction.getCache])
      | Except.ok r =>
        (Except.ok (r, h5f2), log ++ [CacheAction.initCache, CacheAction.getCache])
  else
    match get_cache cfg e h5f with
    | Except.error er => (Except.error er, log ++ [CacheAction.getCache])
    | Except.ok r => (Except.ok (r, h5f), log ++ [CacheAction.getCache])

/-- Lines 268–273 of `CacheObject.handle_cache`: the overwrite removal
(`if status == 'overwrite' and self.is_cached` — the truthy method attribute,
so it fires under `'overwrite'` whether or not the node exists), then the
allocation/fetch tail. -/
def handle_cache_tail (cfg : String) (e : Entity) (h5f : Option H5File)
    (log : List CacheAction) :
    Except CacheErr (Option (Buf × Buf) × Option H5File) × List CacheAction :=
  if cfg = "overwrite" ∧ is_cached_attr_truthy = true then
    handle_cache_fetch cfg e (remove_cache e h5f) (log ++ [CacheAction.removeCache])
  else handle_cache_fetch cfg e h5f log

/-- `CacheObject.handle_cache` under policy mode `cfg`.  `prev` is the
entity's `h5f` before the call; `acquired` is the handle the
`H5cache.get_cache_file` call delivers when caching is active.  Returns the
returned value and the entity's file, plus a log of invoked operations. -/
def handle_cache (cfg : String) (e : Entity) (prev acquired : Option H5File) :
    Except CacheErr (Option (Buf × Buf) × Option H5File) × List CacheAction :=
  if ¬ (cfg = "none" ∨ (cfg = "individual" ∧ e.cached = false)) then
    if acquired.isNone ∨ (cfg = "readonly" ∧ is_cached_attr_truthy = false) then
      -- line 264: `if not self.h5f or (status == 'readonly' and not self.is_cached)`
      (Except.ok (no_cache e, acquired), [CacheAction.acquireFile, CacheAction.noCache])
    else
      handle_cache_tail cfg e acquired [CacheAction.acquireFile]
  else
    handle_cache_tail cfg e prev []

/-! ### Concrete demonstration states -/

/-- Two entities, nothing open, empty cache directory. -/
def demoInit : CacheSys := ⟨[], 0, [], [Option.none, Option.none], []⟩

/-- Entity 0 and entity 1 bind to basename `"t"`, then entity 0 rebinds to
`"u"`. -/
def demoOpsA : List PoolOp :=
  [⟨"all", 0, "t", "a"⟩, ⟨"all", 1, "t", "a"⟩, ⟨"all", 0, "u", "a"⟩]

/-- ... and finally entity 1 also rebinds to `"u"`, unbinding the last user
of `"t"`. -/
def demoOps : List PoolOp := demoOpsA ++ [⟨"all", 1, "u", "a"⟩]

/-- The pool after the first three calls: both files open, `t_cache.h5` still
referenced once. -/
def demoMid : CacheSys :=
  ⟨[⟨"t_cache.h5", 0, "a"⟩, ⟨"u_cache.h5", 1, "a"⟩], 2,
    [("t_cache.h5", 1), ("u_cache.h5", 1)],
    [some ⟨"u_cache.h5", 1, "a"⟩, some ⟨"t_cache.h5", 0, "a"⟩],
    ["t_cache.h5", "u_cache.h5"]⟩

/-- The pool after all four calls: `t_cache.h5` was closed and removed by the
sweep, `u_cache.h5` is shared with count 2. -/
def demoFinal : CacheSys :=
  ⟨[⟨"u_cache.h5", 1, "a"⟩], 2, [("u_cache.h5", 2)],
    [some ⟨"u_cache.h5", 1, "a"⟩, some ⟨"u_cache.h5", 1, "a"⟩],
    ["t_cache.h5", "u_cache.h5"]⟩

/-- A concrete beamformer entity for witnesses. -/
def demoBf : BfEntity :=
  ⟨BfKind.base, "BeamformerBase", "X42", "three_sources", 3, 4, 8, 0, "float64", true⟩

/-- A concrete adaptive-grid beamformer for witnesses. -/
def demoBfGrid : BfEntity :=
  ⟨BfKind.adaptiveGrid, "BeamformerGridlessOrth", "G7", "three_sources", 2, 4, 8, 5,
    "float64", true⟩

/-- A concrete `CacheObject` beamformer entity for witnesses. -/
def demoEntity : Entity :=
  ⟨EntityKind.beamformerBase, "BeamformerBase", "X42", true, 0, 3, 4, "float64",
    "three_sources"⟩

/-- A concrete point-spread-function entity (frequency 1234.56 Hz) for
witnesses. -/
def demoPsf : Entity :=
  ⟨EntityKind.pointSpreadFunction, "PointSpreadFunction", "P1", true, 123456, 3, 4,
    "float64", "three_sources"⟩

/-- A concrete entity that is neither a beamformer nor a point spread
function. -/
def demoGeneric : Entity :=
  ⟨EntityKind.generic, "PowerSpectra", "S9", true, 0, 3, 4, "complex128",
    "three_sources"⟩

/-- An empty backing file. -/
def emptyFile : H5File := ⟨fun _ => Option.none⟩

/-- A backing file holding the node of `demoBf` with `result` and `freqs`
arrays carrying recognisable data. -/
def demoNode : H5Node :=
  ⟨fun a =>
    if a = "result" then some ⟨[3, 4], "float64", [1, 2, 3, 4, 5, 6, 7, 8, 9, 10, 11, 12]⟩
    else if a = "freqs" then some ⟨[3], "int8", [1, 1, 0]⟩
    else Option.none⟩

def demoFile : H5File :=
  ⟨fun n => if n = "BeamformerBaseX42" then some demoNode else Option.none⟩

/-! ### Dictionary lemmas -/

lemma dictSet_fst_preserved (k : String) (v : Int) :
    (Prod.fst ∘ fun p : String × Int => if p.1 == k then (p.1, v) else p) = Prod.fst := by
  funext p
  by_cases hp : p.1 = k <;> simp [hp]

lemma dictSet_map_fst_of_mem {rc : List (String × Int)} {k : String} (v : Int)
    (h : rc.any (fun p => p.1 == k) = true) :
    (dictSet rc k v).map Prod.fst = rc.map Prod.fst := by
  unfold dictSet
  rw [if_pos h, List.map_map, dictSet_fst_preserved]

lemma dictSet_map_fst_of_not_mem {rc : List (String × Int)} {k : String} (v : Int)
    (h : ¬ rc.any (fun p => p.1 == k) = true) :
    (dictSet rc k v).map Prod.fst = rc.map Prod.fst ++ [k] := by
  unfold dictSet
  rw [if_neg h, List.map_append]
  rfl

lemma any_key_iff {rc : List (String × Int)} {k : String} :
    rc.any (fun p => p.1 == k) = true ↔ k ∈ rc.map Prod.fst := by
  simp only [List.any_eq_true, List.mem_map, beq_iff_eq]

lemma dictGetD_dictSet_self (rc : List (String × Int)) (k : String) (v d : Int) :
    dictGetD (dictSet rc k v) k d = v := by
  unfold dictGetD dictSet
  by_cases h : rc.any (fun p => p.1 == k) = true
  · rw [if_pos h, List.find?_map]
    have hpred : (fun p : String × Int => p.1 == k) ∘
        (fun p : String × Int => if p.1 == k then (p.1, v) else p)
        = fun p : String × Int => p.1 == k := by
      funext p
      by_cases hp : p.1 = k <;> simp [hp]
    rw [hpred]
    rcases List.any_eq_true.1 h with ⟨q, hq, hqk⟩
    have hsome : (rc.find? (fun p => p.1 == k)).isSome := by
      rw [List.find?_isSome]
      exact ⟨q, hq, hqk⟩
    rcases Option.isSome_iff_exists.1 hsome with ⟨x, hx⟩
    have hxk : x.1 = k := by simpa using List.find?_some hx
    rw [hx]
    simp [hxk]
  · rw [if_neg h, List.find?_append]
    have hnone : rc.find? (fun p => p.1 == k) = Option.none := by
      rw [List.find?_eq_none]
      intro p hp hpk
      exact h (List.any_eq_true.2 ⟨p, hp, hpk⟩)
    rw [hnone]
    simp

lemma dictGetD_dictSet_ne (rc : List (String × Int)) {k k' : String} (v d : Int)
    (hne : k' ≠ k) : dictGetD (dictSet rc k v) k' d = dictGetD rc k' d := by
  unfold dictGetD dictSet
  by_cases h : rc.any (fun p => p.1 == k) = true
  · rw [if_pos h, List.find?_map]
    have hpred : (fun p : String × Int => p.1 == k') ∘
        (fun p : String × Int => if p.1 == k then (p.1, v) else p)
        = fun p : String × Int => p.1 == k' := by
      funext p
      by_cases hp : p.1 = k <;> simp [hp]
    rw [hpred]
    cases hfind : rc.find? (fun p => p.1 == k') with
    | none => simp
    | some x =>
      have hxk := List.find?_some hfind
      simp only [beq_iff_eq] at hxk
      have hxkk : ¬ x.1 = k := by
        rw [hxk]
        exact hne
      simp [hxkk]
  · rw [if_neg h, List.find?_append]
    have h2 : List.find? (fun p => p.1 == k') [(k, v)] = Option.none := by
      simp [List.find?, (beq_iff_eq (a := k) (b := k')).ne.2 (Ne.symm hne)]
    rw [h2]
    cases rc.find? (fun p => p.1 == k') <;> simp

lemma mem_dictSet {rc : List (String × Int)} {k : String} {v : Int} :
    ∀ p ∈ dictSet rc k v, (p.1 = k ∧ p.2 = v) ∨ (p ∈ rc ∧ p.1 ≠ k) := by
  intro p hp
  unfold dictSet at hp
  by_cases h : rc.any (fun p => p.1 == k) = true
  · rw [if_pos h] at hp
    rcases List.mem_map.1 hp with ⟨q, hq, hqe⟩
    by_cases hqk : q.1 == k
    · left
      simp only [hqk, if_pos] at hqe
      subst hqe
      exact ⟨by simpa using hqk, rfl⟩
    · right
      simp only [hqk] at hqe
      simp only [Bool.false_eq_true, if_false] at hqe
      subst hqe
      exact ⟨hq, by simpa using hqk⟩
  · rw [if_neg h] at hp
    rcases List.mem_append.1 hp with hp | hp
    · right
      refine ⟨hp, fun hk => ?_⟩
      exact h (List.any_eq_true.2 ⟨p, hp, by simpa using hk⟩)
    · left
      simp only [List.mem_singleton] at hp
      subst hp
      exact ⟨rfl, rfl⟩

lemma mem_keys_dictSet_self {rc : List (String × Int)} (k : String) (v : Int) :
    k ∈ (dictSet rc k v).map Prod.fst := by
  by_cases h : rc.any (fun p => p.1 == k) = true
  · rw [dictSet_map_fst_of_mem v h]
    exact any_key_iff.1 h
  · rw [dictSet_map_fst_of_not_mem v h]
    simp

lemma dictPop_of_mem {rc : List (String × Int)} {k : String}
    (h : k ∈ rc.map Prod.fst) :
    dictPop rc k = some (rc.filter (fun p => !(p.1 == k))) := by
  unfold dictPop
  rw [if_pos (any_key_iff.2 h)]

lemma mem_dictPop {rc rc' : List (String × Int)} {k : String}
    (h : dictPop rc k = some rc') :
    ∀ p, p ∈ rc' ↔ p ∈ rc ∧ p.1 ≠ k := by
  intro p
  unfold dictPop at h
  by_cases hmem : rc.any (fun q => q.1 == k) = true
  · rw [if_pos hmem] at h
    cases h
    simp [List.mem_filter]
  · rw [if_neg hmem] at h
    cases h

/-! ### Binding-count lemmas -/

lemma bindCount_cons (x : Option FileHandle) (xs : List (Option FileHandle)) (fn : String) :
    bindCount (x :: xs) fn
      = (if slotMatches x fn then 1 else 0) + bindCount xs fn := by
  unfold bindCount
  rw [List.filter_cons]
  by_cases h : slotMatches x fn <;> simp [h] <;> omega

lemma bindCount_set {l : List (Option FileHandle)} {e : Nat} (he : e < l.length)
    (b : Option FileHandle) (fn : String) :
    bindCount (l.set e b) fn + (if slotMatches (l.getD e Option.none) fn then 1 else 0)
      = bindCount l fn + (if slotMatches b fn then 1 else 0) := by
  induction l generalizing e with
  | nil => simp at he
  | cons x xs ih =>
    cases e with
    | zero =>
      simp only [List.set, List.getD_cons_zero]
      rw [bindCount_cons, bindCount_cons]
      by_cases h1 : slotMatches b fn <;> by_cases h2 : slotMatches x fn <;>
        simp [h1, h2] <;> omega
    | succ n =>
      have hn : n < xs.length := by simpa using he
      simp only [List.set, List.getD_cons_succ]
      rw [bindCount_cons, bindCount_cons]
      have := ih hn
      omega

lemma bindCount_pos_iff {l : List (Option FileHandle)} {fn : String} :
    0 < bindCount l fn ↔ ∃ b ∈ l, slotMatches b fn := by
  unfold bindCount
  rw [List.length_pos_iff_exists_mem]
  constructor
  · rintro ⟨b, hb⟩
    rcases List.mem_filter.1 hb with ⟨h1, h2⟩
    exact ⟨b, h1, h2⟩
  · rintro ⟨b, h1, h2⟩
    exact ⟨b, List.mem_filter.2 ⟨h1, h2⟩⟩

lemma getBinding_lt_length {s : CacheSys} {e : Nat} {f : FileHandle}
    (h : getBinding s e = some f) : e < s.h5f.length := by
  by_contra hge
  push_neg at hge
  unfold getBinding at h
  rw [List.getD_eq_getElem?_getD, List.getElem?_eq_none (by omega)] at h
  simp at h

lemma getBinding_mem {s : CacheSys} {e : Nat} {f : FileHandle}
    (h : getBinding s e = some f) : some f ∈ s.h5f := by
  have hlt := getBinding_lt_length h
  unfold getBinding at h
  rw [List.getD_eq_getElem?_getD, List.getElem?_eq_getElem hlt] at h
  simp only [Option.getD_some] at h
  rw [← h]
  exact List.getElem_mem hlt

lemma getBinding_set_self {s : CacheSys} {e : Nat} (he : e < s.h5f.length)
    (b : Option FileHandle) : getBinding (setBinding s e b) e = b := by
  unfold getBinding setBinding
  simp [List.getD_eq_getElem?_getD, List.getElem?_set_self (by simpa using he)]

/-- Two pooled handles with the same filename are the same handle, because
pooled filenames are distinct. -/
lemma handle_eq_of_filename_eq {s : CacheSys} (hnd : (openNames s).Nodup)
    {f g : FileHandle} (hf : f ∈ s.openFiles) (hg : g ∈ s.openFiles)
    (hfg : f.filename = g.filename) : f = g := by
  exact List.inj_on_of_nodup_map hnd hf hg hfg

/-! ### Sweep soundness -/

lemma referenced_of_mem {l : List (Option FileHandle)} {f : FileHandle}
    (h : some f ∈ l) : referenced l f = true := by
  unfold referenced
  exact List.any_eq_true.2 ⟨some f, h, by simp⟩

/-- Closing one unreferenced file (the body of the sweep loop) preserves the
pool invariant. -/
lemma Inv_close {t : CacheSys} {f : FileHandle} (hf : f ∈ t.openFiles)
    (hInv : Inv t) (hnoref : referenced t.h5f f = false) :
    dictPop t.refCount f.filename
      = some (t.refCount.filter (fun p => !(p.1 == f.filename))) ∧
    Inv { t with openFiles := t.openFiles.filter (fun g => !(g == f)),
                 refCount := t.refCount.filter (fun p => !(p.1 == f.filename)) } := by
  obtain ⟨h1, h2, h3, h4, h5, h6, h8⟩ := hInv
  have hkey : f.filename ∈ refKeys t := h4 f hf
  refine ⟨dictPop_of_mem hkey, ?_, ?_, ?_, ?_, ?_, ?_, ?_⟩
  · exact ((List.filter_sublist _).map _).nodup h1
  · exact ((List.filter_sublist _).map _).nodup h2
  · intro b hb
    cases hbv : b with
    | none => exact trivial
    | some g =>
      have hg : g ∈ t.openFiles := by
        have := h3 b hb
        rw [hbv] at this
        exact this
      have hgf : g ≠ f := by
        intro hgf
        subst hgf
        subst hbv
        exact absurd (referenced_of_mem hb) (by simp [hnoref])
      simp only [slotOk, List.mem_filter]
      exact ⟨hg, by simp [hgf]⟩
  · intro g hg
    rcases List.mem_filter.1 hg with ⟨hg1, hg2⟩
    have hgf : g ≠ f := by simpa using hg2
    have hname : g.filename ≠ f.filename := fun hn =>
      hgf (handle_eq_of_filename_eq h1 hg1 hf hn)
    have hmem := h4 g hg1
    rcases List.mem_map.1 hmem with ⟨p, hp, hpe⟩
    exact List.mem_map.2 ⟨p, List.mem_filter.2 ⟨hp, by simp [hpe, hname]⟩, hpe⟩
  · intro p hp
    rcases List.mem_filter.1 hp with ⟨hp1, hp2⟩
    have hpf : p.1 ≠ f.filename := by simpa using hp2
    have hmem := h5 p hp1
    rcases List.mem_map.1 hmem with ⟨g, hg, hge⟩
    have hgf : g ≠ f := fun hn => hpf (by rw [← hge, hn])
    exact List.mem_map.2 ⟨g, List.mem_filter.2 ⟨hg, by simp [hgf]⟩, hge⟩
  · intro p hp
    exact h6 p (List.mem_filter.1 hp).1
  · intro g hg
    exact h8 g (List.mem_filter.1 hg).1

/-- The sweep terminates successfully, preserves the invariant, leaves the
bindings, handle counter and disk untouched, and never closes a file that is
still referenced. -/
lemma sweepGo_sound (fs : List FileHandle) (t : CacheSys)
    (hInv : Inv t) (hmem : ∀ f ∈ fs, f ∈ t.openFiles)
    (hnn : (fs.map (fun f => f.filename)).Nodup) :
    ∃ t', sweepGo fs t = some t' ∧ Inv t' ∧
      t'.h5f = t.h5f ∧ t'.nextHandle = t.nextHandle ∧ t'.disk = t.disk ∧
      (∀ g ∈ t.openFiles, referenced t.h5f g = true → g ∈ t'.openFiles) ∧
      (∀ g ∈ t'.openFiles, g ∈ t.openFiles) := by
  induction fs generalizing t with
  | nil =>
    exact ⟨t, rfl, hInv, rfl, rfl, rfl, fun g hg _ => hg, fun g hg => hg⟩
  | cons f rest ih =>
    by_cases href : referenced t.h5f f = true
    · have hrec := ih t hInv (fun g hg => hmem g (List.mem_cons_of_mem f hg))
        (List.Nodup.of_cons hnn)
      rcases hrec with ⟨t', ht', hrest⟩
      exact ⟨t', by simp only [sweepGo, href, if_true]; exact ht', hrest⟩
    · have hreff : referenced t.h5f f = false := by simpa using href
      have hf : f ∈ t.openFiles := hmem f (List.mem_cons_self f rest)
      obtain ⟨hpop, hInv1⟩ := Inv_close hf hInv hreff
      set t1 : CacheSys :=
        { t with openFiles := t.openFiles.filter (fun g => !(g == f)),
                 refCount := t.refCount.filter (fun p => !(p.1 == f.filename)) } with ht1
      have hmem1 : ∀ g ∈ rest, g ∈ t1.openFiles := by
        intro g hg
        have hg1 : g ∈ t.openFiles := hmem g (List.mem_cons_of_mem f hg)
        have hgname : g.filename ≠ f.filename := by
          have hnotin : f.filename ∉ rest.map (fun x => x.filename) :=
            (List.nodup_cons.1 hnn).1
          intro he
          exact hnotin (List.mem_map.2 ⟨g, hg, he⟩)
        have hgf : g ≠ f := fun hn => hgname (by rw [hn])
        exact List.mem_filter.2 ⟨hg1, by simp [hgf]⟩
      have hrec := ih t1 hInv1 hmem1 (List.Nodup.of_cons hnn)
      rcases hrec with ⟨t', ht', hInv', hh5f, hnext, hdisk, hkeep, hsub⟩
      refine ⟨t', ?_, hInv', ?_, hnext, hdisk, ?_, ?_⟩
      · simp only [sweepGo, hreff]
        rw [hpop]
        exact ht'
      · exact hh5f
      · intro g hg hgref
        have hgf : g ≠ f := by
          intro hn
          subst hn
          rw [hgref] at hreff
          exact Bool.true_eq_false.mp hreff
        have hg1 : g ∈ t1.openFiles := List.mem_filter.2 ⟨hg, by simp [hgf]⟩
        exact hkeep g hg1 (by simpa [ht1] using hgref)
      · intro g hg
        exact (List.mem_filter.1 (hsub g hg)).1

/-! ### Lookup and decrement helpers -/

lemma lookupOpen_eq_none_iff {s : CacheSys} {fn : String} :
    lookupOpen s fn = Option.none ↔ fn ∉ openNames s := by
  unfold lookupOpen openNames
  rw [List.find?_eq_none]
  constructor
  · intro h hmem
    rcases List.mem_map.1 hmem with ⟨f, hf, hfe⟩
    exact h f hf (by simp [hfe])
  · intro h f hf hbeq
    exact h (List.mem_map.2 ⟨f, hf, by simpa using hbeq⟩)

lemma lookupOpen_some {s : CacheSys} {fn : String} {f : FileHandle}
    (h : lookupOpen s fn = some f) : f ∈ s.openFiles ∧ f.filename = fn := by
  exact ⟨List.mem_of_find?_eq_some h, by simpa using List.find?_some h⟩

lemma decreaseRef_of_mem {rc : List (String × Int)} {k : String}
    (h : k ∈ rc.map Prod.fst) :
    ∃ p, rc.find? (fun q => q.1 == k) = some p ∧ p ∈ rc ∧ p.1 = k ∧
      decreaseRef rc k = some (dictSet rc k (p.2 - 1)) := by
  have hsome : (rc.find? (fun q => q.1 == k)).isSome := by
    rw [List.find?_isSome]
    rcases List.mem_map.1 h with ⟨p, hp, hpe⟩
    exact ⟨p, hp, by simp [hpe]⟩
  rcases Option.isSome_iff_exists.1 hsome with ⟨p, hp⟩
  refine ⟨p, hp, List.mem_of_find?_eq_some hp, by simpa using List.find?_some hp, ?_⟩
  unfold decreaseRef
  rw [hp]

lemma bindCount_eq_zero {l : List (Option FileHandle)} {fn : String}
    (h : ∀ b ∈ l, slotMatches b fn = false) : bindCount l fn = 0 := by
  unfold bindCount
  rw [List.length_eq_zero]
  rw [List.filter_eq_nil]
  intro b hb
  simp [h b hb]

lemma getBinding_mem_or_none (u : CacheSys) (e : Nat) :
    getBinding u e ∈ u.h5f ∨ getBinding u e = Option.none := by
  cases h : getBinding u e with
  | none => exact Or.inr rfl
  | some f => exact Or.inl (h ▸ getBinding_mem h)

/-! ### The bind step -/

/-- Binding the entity, increasing the counter and sweeping — the common tail
of `get_cache_file` — succeeds and restores the full pool invariant. -/
lemma finishBind_ok {u : CacheSys} {e : Nat} {filename : String}
    (he : e < u.h5f.length) (hpre : InvPre u e filename)
    {f : FileHandle} (hlook : lookupOpen u filename = some f) :
    ∃ s', finishBind e filename u = Except.ok s' ∧ Inv s' ∧
      s'.h5f.length = u.h5f.length ∧ s'.nextHandle = u.nextHandle ∧
      s'.disk = u.disk ∧ getBinding s' e = some f ∧
      (∀ g ∈ s'.openFiles, g ∈ u.openFiles) := by
  obtain ⟨h1, h2, h3, h4, h5, h6, h7, h8⟩ := hpre
  obtain ⟨hfmem, hfname⟩ := lookupOpen_some hlook
  set s4 : CacheSys :=
    { setBinding u e (some f) with
      refCount := increaseRef (setBinding u e (some f)).refCount filename } with hs4
  have hs4open : s4.openFiles = u.openFiles := rfl
  have hs4h5f : s4.h5f = u.h5f.set e (some f) := rfl
  have hs4rc : s4.refCount = increaseRef u.refCount filename := rfl
  have hs4next : s4.nextHandle = u.nextHandle := rfl
  have hs4disk : s4.disk = u.disk := rfl
  -- the count identity for the state after the rebind
  have hcount : ∀ fn : String,
      (bindCount s4.h5f fn : Int)
        + (if slotMatches (getBinding u e) fn then (1 : Int) else 0)
        = (bindCount u.h5f fn : Int)
          + (if slotMatches (some f) fn then (1 : Int) else 0) := by
    intro fn
    have hbs := bindCount_set (l := u.h5f) (e := e) he (some f) fn
    rw [hs4h5f]
    unfold getBinding
    by_cases hm1 : slotMatches (u.h5f.getD e Option.none) fn = true
    · by_cases hm2 : slotMatches (some f) fn = true
      · rw [if_pos hm1, if_pos hm2] at hbs
        rw [if_pos hm1, if_pos hm2]
        omega
      · rw [if_pos hm1, if_neg hm2] at hbs
        rw [if_pos hm1, if_neg hm2]
        omega
    · by_cases hm2 : slotMatches (some f) fn = true
      · rw [if_neg hm1, if_pos hm2] at hbs
        rw [if_neg hm1, if_pos hm2]
        omega
      · rw [if_neg hm1, if_neg hm2] at hbs
        rw [if_neg hm1, if_neg hm2]
        omega
  -- the new key is present afterwards
  have hkeynew : filename ∈ refKeys s4 := by
    rw [refKeys, hs4rc]
    unfold increaseRef
    exact mem_keys_dictSet_self filename _
  have hrkeys : ∀ k ∈ refKeys u, k ∈ refKeys s4 := by
    intro k hk
    rw [refKeys, hs4rc]
    unfold increaseRef
    by_cases hkk : u.refCount.any (fun p => p.1 == filename) = true
    · rw [dictSet_map_fst_of_mem _ hkk]
      exact hk
    · rw [dictSet_map_fst_of_not_mem _ hkk]
      exact List.mem_append.2 (Or.inl hk)
  have hInv4 : Inv s4 := by
    refine ⟨?_, ?_, ?_, ?_, ?_, ?_, ?_⟩
    · exact h1
    · rw [refKeys, hs4rc]
      unfold increaseRef
      by_cases hk : u.refCount.any (fun p => p.1 == filename) = true
      · rw [dictSet_map_fst_of_mem _ hk]
        exact h2
      · rw [dictSet_map_fst_of_not_mem _ hk]
        rw [List.nodup_append]
        refine ⟨h2, List.nodup_singleton _, ?_⟩
        intro a ha hb
        simp only [List.mem_singleton] at hb
        subst hb
        exact hk (any_key_iff.2 ha)
    · intro b hb
      rw [hs4h5f] at hb
      rcases List.mem_or_eq_of_mem_set hb with hb | hb
      · have := h3 b hb
        cases b with
        | none => exact trivial
        | some g => exact this
      · subst hb
        exact hfmem
    · intro g hg
      rw [hs4open] at hg
      rcases h4 g hg with hk | hk
      · exact hrkeys _ hk
      · rw [hk]
        exact hkeynew
    · intro p hp
      rw [hs4rc] at hp
      unfold increaseRef at hp
      rcases mem_dictSet p hp with ⟨hpk, _⟩ | ⟨hpmem, _⟩
      · rw [hpk, ← hfname]
        exact List.mem_map.2 ⟨f, hfmem, rfl⟩
      · exact h5 p hpmem
    · intro p hp
      show p.2 = (bindCount (u.h5f.set e (some f)) p.1 : Int)
      rw [hs4rc] at hp
      unfold increaseRef at hp
      have hcnt := hcount p.1
      rw [hs4h5f] at hcnt
      rcases mem_dictSet p hp with ⟨hpk, hpv⟩ | ⟨hpmem, hpk⟩
      · -- the freshly increased entry for `filename`
        have hmf : slotMatches (some f) p.1 = true := by
          simp [slotMatches, hfname, hpk]
        rw [hmf, if_pos rfl] at hcnt
        rw [hpv]
        by_cases hkey : p.1 ∈ refKeys u
        · -- the key existed: its old value satisfied the off-by-one identity
          rcases List.mem_map.1 hkey with ⟨q, hq, hqe⟩
          have hq6 := h6 q hq
          have hgd : dictGetD u.refCount p.1 0 = q.2 := by
            unfold dictGetD
            have hsome : (u.refCount.find? (fun r => r.1 == p.1)).isSome := by
              rw [List.find?_isSome]
              exact ⟨q, hq, by simp [hqe]⟩
            rcases Option.isSome_iff_exists.1 hsome with ⟨r, hr⟩
            have hrmem := List.mem_of_find?_eq_some hr
            have hrk : r.1 = p.1 := by simpa using List.find?_some hr
            have hrq : r = q := List.inj_on_of_nodup_map h2 hrmem hq (by rw [hrk, hqe])
            rw [hr, hrq]
          rw [hpk] at hgd
          rw [hgd]
          rw [hqe] at hq6
          by_cases hmo : slotMatches (getBinding u e) p.1 = true
          · rw [if_pos hmo] at hq6 hcnt
            omega
          · rw [if_neg hmo] at hq6 hcnt
            omega
        · -- fresh key: nothing was bound to `filename` yet
          have habs : p.1 ∉ refKeys u := hkey
          have hget0 : dictGetD u.refCount p.1 0 = 0 := by
            unfold dictGetD
            have : u.refCount.find? (fun r => r.1 == p.1) = Option.none := by
              rw [List.find?_eq_none]
              intro r hr hrk
              exact habs (List.mem_map.2 ⟨r, hr, by simpa using hrk⟩)
            rw [this]
          have hnob : ∀ b ∈ u.h5f, slotMatches b p.1 = false := by
            rw [hpk] at habs ⊢
            exact h7 habs
          have hz : bindCount u.h5f p.1 = 0 := bindCount_eq_zero hnob
          have hmo : slotMatches (getBinding u e) p.1 = false := by
            rcases getBinding_mem_or_none u e with hmem | hnone
            · exact hnob _ hmem
            · rw [hnone]
              rfl
          rw [hpk] at hget0
          rw [hget0]
          rw [if_neg (show ¬ slotMatches (getBinding u e) p.1 = true by simp [hmo])] at hcnt
          rw [hz] at hcnt
          omega
      · -- an untouched entry for a different key
        have hq6 := h6 p hpmem
        have hnfn : ¬ f.filename = p.1 := by
          rw [hfname]
          exact fun hn => hpk hn.symm
        have hmf : slotMatches (some f) p.1 = false := by
          simp [slotMatches, hnfn]
        rw [if_neg (show ¬ slotMatches (some f) p.1 = true by simp [hmf])] at hcnt
        by_cases hmo : slotMatches (getBinding u e) p.1 = true
        · rw [if_pos hmo] at hq6 hcnt
          omega
        · rw [if_neg hmo] at hq6 hcnt
          omega
    · intro g hg
      rw [hs4open] at hg
      exact h8 g hg
  -- run the sweep
  have hnn4 : (s4.openFiles.map (fun g => g.filename)).Nodup := hInv4.1
  obtain ⟨s5, hsweep, hInv5, hh5f, hnext, hdisk, _, hsub⟩ :=
    sweepGo_sound s4.openFiles s4 hInv4 (fun g hg => hg) hnn4
  refine ⟨s5, ?_, hInv5, ?_, ?_, ?_, ?_, ?_⟩
  · unfold finishBind
    rw [hlook]
    show (match close_unreferenced_cachefiles s4 with
      | some s5 => Except.ok s5
      | Option.none => Except.error CacheErr.keyError) = Except.ok s5
    unfold close_unreferenced_cachefiles
    rw [hsweep]
  · rw [hh5f, hs4h5f, List.length_set]
  · rw [hnext, hs4next]
  · rw [hdisk, hs4disk]
  · show s5.h5f.getD e Option.none = some f
    rw [hh5f, hs4h5f]
    simp [List.getD_eq_getElem?_getD, List.getElem?_set_self (by simpa using he)]
  · intro g hg
    rw [hs4open] at hsub
    exact hsub g hg

/-! ### The acquire step -/

lemma no_slot_matches_of_not_open {s : CacheSys} (hInv : Inv s) {fn : String}
    (hfn : fn ∉ openNames s) : ∀ b ∈ s.h5f, slotMatches b fn = false := by
  intro b hb
  cases b with
  | none => rfl
  | some g =>
    have hg : g ∈ s.openFiles := hInv.2.2.1 (some g) hb
    have hne : g.filename ≠ fn := by
      intro hn
      exact hfn (hn ▸ List.mem_map.2 ⟨g, hg, rfl⟩)
    simp [slotMatches, hne]

lemma lookupOpen_openCachefile_self {s : CacheSys} {fn : String} (m : String)
    (h : lookupOpen s fn = Option.none) :
    lookupOpen (openCachefile s fn m) fn = some ⟨fn, s.nextHandle, m⟩ := by
  unfold lookupOpen openCachefile at *
  simp only [List.find?_append, h]
  simp

/-- `fileNameOf` always produces a nonempty (truthy) filename. -/
lemma fileNameOf_ne_empty (b : String) : fileNameOf b ≠ "" := by
  unfold fileNameOf
  intro h
  have hlen : (b ++ "_cache.h5").length = 0 := by rw [h]; rfl
  rw [String.length_append] at hlen
  have : ("_cache.h5" : String).length = 9 := by decide
  omega

/-- The optional reference-count decrement at the head of `get_cache_file`
succeeds and leaves a state that satisfies the off-by-one pre-invariant. -/
lemma decStep_ok {s : CacheSys} (hInv : Inv s) (e : Nat) :
    ∃ s1, (if get_filename (getBinding s e) ≠ "" then
            match decreaseRef s.refCount (get_filename (getBinding s e)) with
            | some rc => Except.ok { s with refCount := rc }
            | Option.none => Except.error CacheErr.keyError
          else Except.ok s) = Except.ok s1 ∧
      s1.openFiles = s.openFiles ∧ s1.h5f = s.h5f ∧ s1.disk = s.disk ∧
      s1.nextHandle = s.nextHandle ∧ refKeys s1 = refKeys s ∧
      (∀ p ∈ s1.refCount, p.1 ∈ openNames s) ∧
      (∀ p ∈ s1.refCount,
        p.2 + (if slotMatches (getBinding s e) p.1 then (1 : Int) else 0)
          = (bindCount s.h5f p.1 : Int)) := by
  obtain ⟨h1, h2, h3, h4, h5, h6, h8⟩ := hInv
  cases hb : getBinding s e with
  | none =>
    refine ⟨s, ?_, rfl, rfl, rfl, rfl, rfl, h5, ?_⟩
    · rw [if_neg (by simp [get_filename])]
    · intro p hp
      rw [if_neg (by simp [slotMatches])]
      simpa using h6 p hp
  | some f0 =>
    have hf0 : f0 ∈ s.openFiles := h3 (some f0) (getBinding_mem hb)
    have hkey : f0.filename ∈ refKeys s := h4 f0 hf0
    obtain ⟨q, hqfind, hqmem, hqk, hdec⟩ := decreaseRef_of_mem hkey
    have hne : get_filename (some f0) ≠ "" := h8 f0 hf0
    refine ⟨{ s with refCount := dictSet s.refCount f0.filename (q.2 - 1) },
      ?_, rfl, rfl, rfl, rfl, ?_, ?_, ?_⟩
    · rw [if_pos hne]
      simp only [get_filename]
      rw [hdec]
    · show (dictSet s.refCount f0.filename (q.2 - 1)).map Prod.fst = refKeys s
      exact dictSet_map_fst_of_mem _ (any_key_iff.2 hkey)
    · intro p hp
      rcases mem_dictSet p hp with ⟨hpk, _⟩ | ⟨hpmem, _⟩
      · rw [hpk]
        exact List.mem_map.2 ⟨f0, hf0, rfl⟩
      · exact h5 p hpmem
    · intro p hp
      rcases mem_dictSet p hp with ⟨hpk, hpv⟩ | ⟨hpmem, hpk⟩
      · have hmatch : slotMatches (some f0) p.1 = true := by
          simp [slotMatches, hpk]
        rw [if_pos hmatch, hpv]
        have hq6 := h6 q hqmem
        rw [hqk] at hq6
        rw [← hpk] at hq6
        omega
      · have hmatch : ¬ slotMatches (some f0) p.1 = true := by
          simp [slotMatches]
          exact fun hn => hpk hn.symm
        rw [if_neg hmatch]
        simpa using h6 p hpmem

/-- `get_cache_file` always succeeds from an invariant state, preserves the
pool invariant, and: a request for an already-pooled filename is served from
the pool (no new handle is created, the entity ends up bound to the pooled
handle); in readonly mode with the file absent, the entity is left unbound
and neither the pool nor the disk changes. -/
lemma get_cache_file_ok {s : CacheSys} (hInv : Inv s) (cfg : String) {e : Nat}
    (he : e < s.h5f.length) (basename mode : String) :
    ∃ s', get_cache_file cfg e basename mode s = Except.ok s' ∧ Inv s' ∧
      s'.h5f.length = s.h5f.length ∧
      (fileNameOf basename ∈ openNames s →
        s'.nextHandle = s.nextHandle ∧
        ∃ f, getBinding s' e = some f ∧ f ∈ s.openFiles ∧
          f.filename = fileNameOf basename) ∧
      (cfg = "readonly" → fileNameOf basename ∉ openNames s →
        fileNameOf basename ∉ s.disk →
        s'.openFiles = s.openFiles ∧ s'.disk = s.disk ∧
        s'.nextHandle = s.nextHandle ∧ getBinding s' e = Option.none) := by
  by_cases hA : get_filename (getBinding s e) ≠ "" ∧
      get_filename (getBinding s e) = fileNameOf basename
  · -- lines 107–110: already bound to the requested filename, no-op
    cases hbind : getBinding s e with
    | none =>
      rw [hbind] at hA
      exact absurd rfl hA.1
    | some f0 =>
      have hf0mem : f0 ∈ s.openFiles := hInv.2.2.1 _ (getBinding_mem hbind)
      have hf0name : f0.filename = fileNameOf basename := by
        have := hA.2
        rw [hbind] at this
        exact this
      refine ⟨s, ?_, hInv, rfl, ?_, ?_⟩
      · unfold get_cache_file
        rw [if_pos hA]
      · intro _
        exact ⟨rfl, f0, hbind, hf0mem, hf0name⟩
      · intro _ hnin _
        exact absurd (hf0name ▸ List.mem_map.2 ⟨f0, hf0mem, rfl⟩) hnin
  · obtain ⟨s1, hs1eq, hOF, hH5, hDisk, hNext, hKeys, hKeysOpen, hPre6⟩ :=
      decStep_ok hInv e
    have hbody : get_cache_file cfg e basename mode s
        = (if (lookupOpen s1 (fileNameOf basename)).isSome then
            finishBind e (fileNameOf basename) s1
          else if cfg = "readonly" ∧ fileNameOf basename ∉ s1.disk then
            Except.ok (setBinding s1 e Option.none)
          else
            finishBind e (fileNameOf basename)
              (openCachefile s1 (fileNameOf basename)
                (if cfg = "readonly" then "r" else mode))) := by
      unfold get_cache_file
      rw [if_neg hA, hs1eq]
    have hbind1 : getBinding s1 e = getBinding s e := by
      unfold getBinding
      rw [hH5]
    have hnames1 : openNames s1 = openNames s := by
      unfold openNames
      rw [hOF]
    have he1 : e < s1.h5f.length := by
      rw [hH5]
      exact he
    obtain ⟨h1, h2, h3, h4, h5, h6, h8⟩ := hInv
    have hnokey_noslot : ∀ fn, fn ∉ refKeys s → ∀ b ∈ s.h5f, slotMatches b fn = false := by
      intro fn hfn b hb
      have hfn2 : fn ∉ openNames s := by
        intro hmem
        rcases List.mem_map.1 hmem with ⟨g, hg, hge⟩
        exact hfn (hge ▸ h4 g hg)
      exact no_slot_matches_of_not_open ⟨h1, h2, h3, h4, h5, h6, h8⟩ hfn2 b hb
    have hInvPre : InvPre s1 e (fileNameOf basename) := by
      refine ⟨?_, ?_, ?_, ?_, ?_, ?_, ?_, ?_⟩
      · rw [hnames1]
        exact h1
      · show (refKeys s1).Nodup
        rw [hKeys]
        exact h2
      · intro b hb
        rw [hH5] at hb
        have := h3 b hb
        cases b with
        | none => exact trivial
        | some g =>
          show g ∈ s1.openFiles
          rw [hOF]
          exact this
      · intro g hg
        rw [hOF] at hg
        left
        show g.filename ∈ refKeys s1
        rw [hKeys]
        exact h4 g hg
      · intro p hp
        rw [hnames1]
        exact hKeysOpen p hp
      · intro p hp
        rw [hbind1, hH5]
        exact hPre6 p hp
      · intro hnk b hb
        rw [hH5] at hb
        have hnk2 : fileNameOf basename ∉ refKeys s := by
          rw [← hKeys]
          exact hnk
        exact hnokey_noslot _ hnk2 b hb
      · intro g hg
        rw [hOF] at hg
        exact h8 g hg
    cases hlook : lookupOpen s1 (fileNameOf basename) with
    | some f =>
      obtain ⟨s', hfb, hInv', hlen, hnext, hdisk, hbind', hsub⟩ :=
        finishBind_ok he1 hInvPre hlook
      obtain ⟨hfmem1, hfname1⟩ := lookupOpen_some hlook
      refine ⟨s', ?_, hInv', ?_, ?_, ?_⟩
      · rw [hbody, if_pos (by rw [hlook]; rfl)]
        exact hfb
      · rw [hlen, hH5]
      · intro _
        refine ⟨by rw [hnext, hNext], f, hbind', ?_, hfname1⟩
        rw [← hOF]
        exact hfmem1
      · intro _ hnin _
        exact absurd (hfname1 ▸ (hnames1 ▸ List.mem_map.2 ⟨f, hfmem1, rfl⟩)) hnin
    | none =>
      have hnotin1 : fileNameOf basename ∉ openNames s1 := lookupOpen_eq_none_iff.1 hlook
      have hnotin : fileNameOf basename ∉ openNames s := hnames1 ▸ hnotin1
      by_cases hro : cfg = "readonly" ∧ fileNameOf basename ∉ s1.disk
      · -- readonly mode, file absent: clear the binding, touch nothing
        refine ⟨setBinding s1 e Option.none, ?_, ?_, ?_, ?_, ?_⟩
        · rw [hbody, if_neg (by rw [hlook]; simp), if_pos hro]
        · refine ⟨?_, ?_, ?_, ?_, ?_, ?_, ?_⟩
          · show (openNames s1).Nodup
            rw [hnames1]
            exact h1
          · show (refKeys s1).Nodup
            rw [hKeys]
            exact h2
          · intro b hb
            have hb2 : b ∈ s1.h5f ∨ b = Option.none := by
              rcases List.mem_or_eq_of_mem_set hb with h | h
              · exact Or.inl h
              · exact Or.inr h
            rcases hb2 with hb2 | hb2
            · rw [hH5] at hb2
              have := h3 b hb2
              cases b with
              | none => exact trivial
              | some g =>
                show g ∈ s1.openFiles
                rw [hOF]
                exact this
            · rw [hb2]
              exact trivial
          · intro g hg
            show g.filename ∈ refKeys s1
            rw [hKeys]
            apply h4
            rw [← hOF]
            exact hg
          · intro p hp
            show p.1 ∈ openNames s1
            rw [hnames1]
            exact hKeysOpen p hp
          · intro p hp
            have hp6 := hPre6 p hp
            have hbs := bindCount_set (l := s.h5f) (e := e) he Option.none p.1
            show p.2 = (bindCount (s1.h5f.set e Option.none) p.1 : Int)
            rw [hH5]
            by_cases hm : slotMatches (getBinding s e) p.1 = true
            · rw [if_pos hm] at hp6
              unfold getBinding at hm
              rw [if_pos hm] at hbs
              have hnone : slotMatches Option.none p.1 = false := rfl
              rw [hnone] at hbs
              simp only [if_false, Bool.false_eq_true] at hbs
              omega
            · rw [if_neg hm] at hp6
              unfold getBinding at hm
              rw [if_neg hm] at hbs
              have hnone : slotMatches Option.none p.1 = false := rfl
              rw [hnone] at hbs
              simp only [if_false, Bool.false_eq_true] at hbs
              omega
          · intro g hg
            apply h8
            rw [← hOF]
            exact hg
        · show (s1.h5f.set e Option.none).length = s.h5f.length
          rw [List.length_set, hH5]
        · intro hmem
          exact absurd hmem hnotin
        · intro _ _ _
          refine ⟨?_, ?_, ?_, ?_⟩
          · show s1.openFiles = s.openFiles
            exact hOF
          · show s1.disk = s.disk
            exact hDisk
          · show s1.nextHandle = s.nextHandle
            exact hNext
          · exact getBinding_set_self he1 Option.none
      · -- open the file, pool it, bind, count, sweep
        set u : CacheSys := openCachefile s1 (fileNameOf basename)
          (if cfg = "readonly" then "r" else mode) with hu
        have huOF : u.openFiles
            = s1.openFiles ++ [⟨fileNameOf basename, s1.nextHandle,
                if cfg = "readonly" then "r" else mode⟩] := rfl
        have huH5 : u.h5f = s.h5f := hH5
        have huRC : u.refCount = s1.refCount := rfl
        have hulook : lookupOpen u (fileNameOf basename)
            = some ⟨fileNameOf basename, s1.nextHandle,
                if cfg = "readonly" then "r" else mode⟩ :=
          lookupOpen_openCachefile_self _ hlook
        have hue : e < u.h5f.length := by
          rw [huH5]
          exact he
        have hInvPreU : InvPre u e (fileNameOf basename) := by
          refine ⟨?_, ?_, ?_, ?_, ?_, ?_, ?_, ?_⟩
          · show (u.openFiles.map (fun g => g.filename)).Nodup
            rw [huOF, List.map_append, List.nodup_append]
            refine ⟨by rw [show s1.openFiles.map (fun g => g.filename)
              = openNames s1 from rfl, hnames1]; exact h1, List.nodup_singleton _, ?_⟩
            intro a ha hb
            simp only [List.map_cons, List.map_nil, List.mem_singleton] at hb
            subst hb
            exact hnotin1 ha
          · show (refKeys s1).Nodup
            rw [hKeys]
            exact h2
          · intro b hb
            rw [huH5] at hb
            have := h3 b hb
            cases b with
            | none => exact trivial
            | some g =>
              show g ∈ u.openFiles
              rw [huOF]
              apply List.mem_append.2
              left
              rw [hOF]
              exact this
          · intro g hg
            rw [huOF] at hg
            rcases List.mem_append.1 hg with hg | hg
            · left
              show g.filename ∈ refKeys s1
              rw [hKeys]
              apply h4
              rw [← hOF]
              exact hg
            · right
              simp only [List.mem_singleton] at hg
              rw [hg]
          · intro p hp
            rw [huRC] at hp
            show p.1 ∈ u.openFiles.map (fun g => g.filename)
            rw [huOF, List.map_append]
            apply List.mem_append.2
            left
            rw [show s1.openFiles.map (fun g => g.filename) = openNames s1 from rfl,
              hnames1]
            exact hKeysOpen p hp
          · intro p hp
            rw [huRC] at hp
            have := hPre6 p hp
            show p.2 + _ = (bindCount u.h5f p.1 : Int)
            rw [huH5]
            unfold getBinding
            rw [huH5]
            exact this
          · intro _ b hb
            rw [huH5] at hb
            exact no_slot_matches_of_not_open ⟨h1, h2, h3, h4, h5, h6, h8⟩ hnotin b hb
          · intro g hg
            rw [huOF] at hg
            rcases List.mem_append.1 hg with hg | hg
            · apply h8
              rw [← hOF]
              exact hg
            · simp only [List.mem_singleton] at hg
              rw [hg]
              exact fileNameOf_ne_empty basename
        obtain ⟨s', hfb, hInv', hlen, hnext, hdisk, hbind', hsub⟩ :=
          finishBind_ok hue hInvPreU hulook
        refine ⟨s', ?_, hInv', ?_, ?_, ?_⟩
        · rw [hbody, if_neg (by rw [hlook]; simp), if_neg hro]
          exact hfb
        · rw [hlen, huH5]
        · intro hmem
          exact absurd hmem hnotin
        · intro hro1 _ hro2
          rw [← hDisk] at hro2
          exact absurd ⟨hro1, hro2⟩ hro

/-- A whole sequence of `get_cache_file` calls succeeds from an invariant
state and preserves the invariant. -/
lemma runOps_ok (ops : List PoolOp) {s : CacheSys} (hInv : Inv s)
    (hents : ∀ op ∈ ops, op.entity < s.h5f.length) :
    ∃ s', runOps ops s = Except.ok s' ∧ Inv s' ∧ s'.h5f.length = s.h5f.length := by
  induction ops generalizing s with
  | nil => exact ⟨s, rfl, hInv, rfl⟩
  | cons op rest ih =>
    obtain ⟨s1, heq, hInv1, hlen, _, _⟩ :=
      get_cache_file_ok hInv op.cfg (hents op (List.mem_cons_self op rest))
        op.basename op.mode
    obtain ⟨s', heq', hInv', hlen'⟩ := ih hInv1
      (fun o ho => by rw [hlen]; exact hents o (List.mem_cons_of_mem op ho))
    refine ⟨s', ?_, hInv', by rw [hlen', hlen]⟩
    unfold runOps
    rw [heq]
    exact heq'

lemma dictGetD_ne_zero {rc : List (String × Int)} {k : String}
    (h : dictGetD rc k 0 ≠ 0) :
    ∃ p ∈ rc, p.1 = k ∧ p.2 = dictGetD rc k 0 := by
  unfold dictGetD at h ⊢
  cases hf : rc.find? (fun p => p.1 == k) with
  | none =>
    rw [hf] at h
    exact absurd rfl h
  | some p =>
    exact ⟨p, List.mem_of_find?_eq_some hf, by simpa using List.find?_some hf, rfl⟩

/-- A pooled file whose `open_file_reference` count is nonzero is still bound
by some entity, hence the referrer scan finds it and the sweep keeps it. -/
lemma sweep_keeps_counted {t : CacheSys} (hInv : Inv t) {g : FileHandle}
    (hg : g ∈ t.openFiles) (hpos : dictGetD t.refCount g.filename 0 ≠ 0) :
    ∃ t', close_unreferenced_cachefiles t = some t' ∧ g ∈ t'.openFiles := by
  obtain ⟨p, hpmem, hpk, hpv⟩ := dictGetD_ne_zero hpos
  have h6 := hInv.2.2.2.2.2.1 p hpmem
  have hcnt : 0 < bindCount t.h5f p.1 := by
    rcases Nat.eq_zero_or_pos (bindCount t.h5f p.1) with hz | hp
    · rw [hz] at h6
      rw [h6] at hpv
      exact absurd hpv.symm (by simpa using hpos)
    · exact hp
  obtain ⟨b, hb, hmatch⟩ := bindCount_pos_iff.1 hcnt
  cases b with
  | none => exact absurd hmatch (by simp [slotMatches])
  | some h' =>
    have hmem' : h' ∈ t.openFiles := hInv.2.2.1 (some h') hb
    have hname' : h'.filename = p.1 := by simpa [slotMatches] using hmatch
    have hg' : h' = g := handle_eq_of_filename_eq hInv.1 hmem' hg (by rw [hname', hpk])
    have href : referenced t.h5f g = true := referenced_of_mem (hg' ▸ hb)
    obtain ⟨t', hsweep, _, _, _, _, hkeep, _⟩ :=
      sweepGo_sound t.openFiles t hInv (fun f hf => hf) hInv.1
    exact ⟨t', hsweep, hkeep g hg href⟩

/-! ### Claims -/

/-- **C1**: Pool invariant.  For every sequence of `get_cache_file` calls from
an invariant state, the invariant — in particular "pooled filenames are
distinct", i.e. at most one open backing-store handle per filename — is
maintained; a request naming an already-pooled filename is served from the
pool (the handle counter does not advance and the entity ends up bound to a
pooled handle of that filename); a file whose `open_file_reference` count is
nonzero is never closed by `close_unreferenced_cachefiles`; and in the
concrete two-entity run, both entities bind `t_cache.h5` (count 2), after one
rebinds away the file stays open with count 1, and after the second rebinds
away the next sweep closes and removes it. -/
theorem pool_refcount_invariant :
    (∀ (ops : List PoolOp) (s : CacheSys), Inv s →
      (∀ op ∈ ops, op.entity < s.h5f.length) →
      ∃ s', runOps ops s = Except.ok s' ∧ Inv s' ∧ (openNames s').Nodup) ∧
    (∀ (s : CacheSys) (cfg : String) (e : Nat) (basename mode : String), Inv s →
      e < s.h5f.length → fileNameOf basename ∈ openNames s →
      ∃ s', get_cache_file cfg e basename mode s = Except.ok s' ∧
        s'.nextHandle = s.nextHandle ∧
        ∃ f, getBinding s' e = some f ∧ f ∈ s.openFiles ∧
          f.filename = fileNameOf basename) ∧
    (∀ (t : CacheSys) (g : FileHandle), Inv t → g ∈ t.openFiles →
      dictGetD t.refCount g.filename 0 ≠ 0 →
      ∃ t', close_unreferenced_cachefiles t = some t' ∧ g ∈ t'.openFiles) ∧
    (runOps demoOpsA demoInit = Except.ok demoMid ∧
      runOps demoOps demoInit = Except.ok demoFinal ∧
      dictGetD demoMid.refCount "t_cache.h5" 0 = 1 ∧
      "t_cache.h5" ∈ openNames demoMid ∧
      "t_cache.h5" ∉ openNames demoFinal ∧
      "t_cache.h5" ∉ refKeys demoFinal ∧
      openNames demoFinal = ["u_cache.h5"] ∧
      dictGetD demoFinal.refCount "u_cache.h5" 0 = 2 ∧
      demoFinal.nextHandle = 2) := by
  refine ⟨?_, ?_, ?_, ?_⟩
  · intro ops s hInv hents
    obtain ⟨s', h1, h2, _⟩ := runOps_ok ops hInv hents
    exact ⟨s', h1, h2, h2.1⟩
  · intro s cfg e basename mode hInv he hmem
    obtain ⟨s', heq, _, _, hpool, _⟩ := get_cache_file_ok hInv cfg he basename mode
    obtain ⟨hnext, f, hb, hf, hn⟩ := hpool hmem
    exact ⟨s', heq, hnext, f, hb, hf, hn⟩
  · intro t g hInv hg hpos
    exact sweep_keeps_counted hInv hg hpos
  · refine ⟨?_, ?_, ?_, ?_, ?_, ?_, ?_, ?_, ?_⟩ <;> first | rfl | decide

theorem pool_refcount_invariant_witness :
    Inv demoInit ∧ (∀ op ∈ demoOps, op.entity < demoInit.h5f.length) ∧
    (∃ s', runOps demoOps demoInit = Except.ok s' ∧ Inv s' ∧ (openNames s').Nodup) ∧
    Inv demoMid ∧ (⟨"t_cache.h5", 0, "a"⟩ : FileHandle) ∈ demoMid.openFiles ∧
    dictGetD demoMid.refCount (FileHandle.filename ⟨"t_cache.h5", 0, "a"⟩) 0 ≠ 0 ∧
    (∃ t', close_unreferenced_cachefiles demoMid = some t' ∧
      (⟨"t_cache.h5", 0, "a"⟩ : FileHandle) ∈ t'.openFiles) :=
  ⟨by decide, by decide,
    pool_refcount_invariant.1 demoOps demoInit (by decide) (by decide),
    by decide, by decide, by decide,
    pool_refcount_invariant.2.2.1 demoMid ⟨"t_cache.h5", 0, "a"⟩ (by decide)
      (by decide) (by decide)⟩

/-- **C7**: Acquire is idempotent for a bound entity.  When the entity's
`h5f` already holds a handle on `basename + '_cache.h5'`, `get_cache_file`
returns with the state completely unchanged — the same bound handle, no file
opened or closed, no reference count changed. -/
theorem acquire_idempotent_bound (s : CacheSys) (cfg : String) (e : Nat)
    (basename mode : String) (f : FileHandle)
    (hbind : getBinding s e = some f) (hname : f.filename = fileNameOf basename) :
    get_cache_file cfg e basename mode s = Except.ok s := by
  unfold get_cache_file
  rw [if_pos]
  constructor
  · rw [hbind]
    show f.filename ≠ ""
    rw [hname]
    exact fileNameOf_ne_empty basename
  · rw [hbind]
    exact hname

theorem acquire_idempotent_bound_witness :
    getBinding demoFinal 0 = some ⟨"u_cache.h5", 1, "a"⟩ ∧
    (⟨"u_cache.h5", 1, "a"⟩ : FileHandle).filename = fileNameOf "u" ∧
    get_cache_file "all" 0 "u" "a" demoFinal = Except.ok demoFinal :=
  ⟨by decide, by decide,
    acquire_idempotent_bound demoFinal "all" 0 "u" "a" ⟨"u_cache.h5", 1, "a"⟩
      (by decide) (by decide)⟩

/-- **C6**: In readonly mode with the cache file absent from the cache
directory (and not pooled), `get_cache_file` returns normally with the
entity's `h5f` cleared, no file created on disk, no handle opened, pool
untouched, and the invariant preserved; `handle_cache` then takes the
designed bypass path and returns the transient `_no_cache` pair ("not
cached") for a beamformer entity. -/
theorem readonly_missing_bypass (s : CacheSys) (e : Nat) (basename mode : String)
    (hInv : Inv s) (he : e < s.h5f.length)
    (hopen : fileNameOf basename ∉ openNames s)
    (hdisk : fileNameOf basename ∉ s.disk) :
    (∃ s', get_cache_file "readonly" e basename mode s = Except.ok s' ∧
      getBinding s' e = Option.none ∧ s'.openFiles = s.openFiles ∧
      s'.disk = s.disk ∧ s'.nextHandle = s.nextHandle ∧ Inv s') ∧
    (∀ ent : Entity, ent.kind = EntityKind.beamformerBase → ∀ prev,
      (handle_cache "readonly" ent prev Option.none).1
        = Except.ok (no_cache ent, Option.none) ∧ (no_cache ent).isSome = true) := by
  constructor
  · obtain ⟨s', heq, hInv', _, _, hro⟩ := get_cache_file_ok hInv "readonly" he basename mode
    obtain ⟨hOF, hDisk, hNext, hBind⟩ := hro rfl hopen hdisk
    exact ⟨s', heq, hBind, hOF, hDisk, hNext, hInv'⟩
  · intro ent hk prev
    constructor
    · unfold handle_cache
      rw [if_pos (by simp), if_pos (by simp)]
    · simp [no_cache, hk]

theorem readonly_missing_bypass_witness :
    Inv demoInit ∧ 0 < demoInit.h5f.length ∧
    fileNameOf "w" ∉ openNames demoInit ∧ fileNameOf "w" ∉ demoInit.disk ∧
    ((∃ s', get_cache_file "readonly" 0 "w" "a" demoInit = Except.ok s' ∧
      getBinding s' 0 = Option.none ∧ s'.openFiles = demoInit.openFiles ∧
      s'.disk = demoInit.disk ∧ s'.nextHandle = demoInit.nextHandle ∧ Inv s') ∧
    (∀ ent : Entity, ent.kind = EntityKind.beamformerBase → ∀ prev,
      (handle_cache "readonly" ent prev Option.none).1
        = Except.ok (no_cache ent, Option.none) ∧ (no_cache ent).isSome = true)) :=
  ⟨by decide, by decide, by decide, by decide,
    readonly_missing_bypass demoInit 0 "w" "a" (by decide) (by decide)
      (by decide) (by decide)⟩

/-! ### `handle_cache` lemmas -/

/-- The allocation branch of the fetch tail is dead: its log is always
`log ++ [getCache]`. -/
lemma handle_cache_fetch_log (cfg : String) (e : Entity) (h5f : Option H5File)
    (log : List CacheAction) :
    (handle_cache_fetch cfg e h5f log).2 = log ++ [CacheAction.getCache] := by
  unfold handle_cache_fetch
  rw [if_neg (by simp [is_cached_attr_truthy])]
  cases get_cache cfg e h5f <;> rfl

lemma handle_cache_fetch_fst {cfg : String} {e : Entity} {h5f : Option H5File}
    (log : List CacheAction) (hgc : get_cache cfg e h5f = Except.ok Option.none) :
    (handle_cache_fetch cfg e h5f log).1 = Except.ok (Option.none, h5f) := by
  unfold handle_cache_fetch
  rw [if_neg (by simp [is_cached_attr_truthy]), hgc]

lemma handle_cache_tail_log (cfg : String) (e : Entity) (h5f : Option H5File)
    (log : List CacheAction) :
    (handle_cache_tail cfg e h5f log).2
      = (if cfg = "overwrite" then log ++ [CacheAction.removeCache] else log)
        ++ [CacheAction.getCache] := by
  unfold handle_cache_tail
  by_cases h : cfg = "overwrite"
  · rw [if_pos (by exact ⟨h, rfl⟩), handle_cache_fetch_log, if_pos h]
  · rw [if_neg (by intro hc; exact h hc.1), handle_cache_fetch_log, if_neg h]

lemma handle_cache_log (cfg : String) (e : Entity) (prev acquired : Option H5File) :
    (handle_cache cfg e prev acquired).2
      = (if ¬ (cfg = "none" ∨ (cfg = "individual" ∧ e.cached = false)) then
          (if acquired.isNone = true then
            [CacheAction.acquireFile, CacheAction.noCache]
          else
            (if cfg = "overwrite" then
              [CacheAction.acquireFile, CacheAction.removeCache]
            else [CacheAction.acquireFile]) ++ [CacheAction.getCache])
        else
          (if cfg = "overwrite" then [CacheAction.removeCache] else [])
            ++ [CacheAction.getCache]) := by
  unfold handle_cache
  by_cases ha : ¬ (cfg = "none" ∨ (cfg = "individual" ∧ e.cached = false))
  · rw [if_pos ha, if_pos ha]
    by_cases hb : acquired.isNone = true
    · rw [if_pos (Or.inl hb), if_pos hb]
    · rw [if_neg ?_, if_neg hb, handle_cache_tail_log]
      · by_cases hc : cfg = "overwrite" <;> simp [hc]
      · intro hor
        rcases hor with h | h
        · exact hb h
        · simp [is_cached_attr_truthy] at h
  · rw [if_neg ha, if_neg ha, handle_cache_tail_log]
    by_cases hc : cfg = "overwrite" <;> simp [hc]

/-! ### Claims on `CacheObject.handle_cache` -/

/-- **C9**: Every test of the cached state in `handle_cache` reads the method
attribute `self.is_cached` without calling it, which is always truthy; hence
the `not self.is_cached` branch is unreachable, `_init_cache` is never
invoked, and under `'overwrite'` `_remove_cache` is invoked for every entity
and every file state — even when no node exists (the second conjunct holds
for arbitrary `acquired` files, including ones without the entity's node). -/
theorem handle_cache_is_cached_truthy :
    is_cached_attr_truthy = true ∧
    (∀ (cfg : String) (e : Entity) (prev acquired : Option H5File),
      CacheAction.initCache ∉ (handle_cache cfg e prev acquired).2) ∧
    (∀ (e : Entity) (f : H5File) (prev : Option H5File),
      CacheAction.removeCache ∈ (handle_cache "overwrite" e prev (some f)).2) := by
  refine ⟨rfl, ?_, ?_⟩
  · intro cfg e prev acquired
    rw [handle_cache_log]
    by_cases ha : ¬ (cfg = "none" ∨ (cfg = "individual" ∧ e.cached = false)) <;>
      by_cases hb : acquired.isNone = true <;>
      by_cases hc : cfg = "overwrite" <;>
      simp [ha, hb, hc]
  · intro e f prev
    rw [handle_cache_log]
    simp

theorem handle_cache_is_cached_truthy_witness :
    emptyFile.is_cached (get_nodename demoGeneric) = false ∧
    CacheAction.initCache
      ∉ (handle_cache "all" demoGeneric Option.none (some emptyFile)).2 ∧
    CacheAction.removeCache
      ∈ (handle_cache "overwrite" demoGeneric Option.none (some emptyFile)).2 :=
  ⟨rfl,
    handle_cache_is_cached_truthy.2.1 "all" demoGeneric Option.none (some emptyFile),
    handle_cache_is_cached_truthy.2.2 demoGeneric emptyFile Option.none⟩

/-- **C10**: For an entity that is neither a `BeamformerBase` nor a
`PointSpreadFunction`, `_no_cache` returns `None`; for an entity that is not
a `BeamformerBase`, `_get_cache` returns `None`; consequently `handle_cache`
returns no array buffer at all for such entities — its returned value is
always `None`, never storage matching the entity's schema. -/
theorem generic_entity_no_buffer :
    (∀ e : Entity, e.kind ≠ EntityKind.beamformerBase →
      e.kind ≠ EntityKind.pointSpreadFunction → no_cache e = Option.none) ∧
    (∀ (cfg : String) (e : Entity) (h5f : Option H5File),
      e.kind ≠ EntityKind.beamformerBase →
      get_cache cfg e h5f = Except.ok Option.none) ∧
    (∀ (cfg : String) (e : Entity) (prev acquired : Option H5File),
      e.kind ≠ EntityKind.beamformerBase →
      e.kind ≠ EntityKind.pointSpreadFunction →
      ((handle_cache cfg e prev acquired).1).map Prod.fst
        = Except.ok Option.none) := by
  have hno : ∀ e : Entity, e.kind ≠ EntityKind.beamformerBase →
      e.kind ≠ EntityKind.pointSpreadFunction → no_cache e = Option.none := by
    intro e h1 h2
    unfold no_cache
    rw [if_neg (by intro h; rcases h with h | h <;> [exact h1 h; exact h2 h])]
  have hgc : ∀ (cfg : String) (e : Entity) (h5f : Option H5File),
      e.kind ≠ EntityKind.beamformerBase →
      get_cache cfg e h5f = Except.ok Option.none := by
    intro cfg e h5f h1
    unfold get_cache
    rw [if_neg h1]
  refine ⟨hno, hgc, ?_⟩
  intro cfg e prev acquired h1 h2
  have htail : ∀ (h5f : Option H5File) (log : List CacheAction),
      ((handle_cache_tail cfg e h5f log).1).map Prod.fst = Except.ok Option.none := by
    intro h5f log
    unfold handle_cache_tail
    by_cases hov : cfg = "overwrite" ∧ is_cached_attr_truthy = true
    · rw [if_pos hov,
        handle_cache_fetch_fst _ (hgc cfg e (remove_cache e h5f) h1)]
      rfl
    · rw [if_neg hov, handle_cache_fetch_fst _ (hgc cfg e h5f h1)]
      rfl
  unfold handle_cache
  by_cases ha : ¬ (cfg = "none" ∨ (cfg = "individual" ∧ e.cached = false))
  · rw [if_pos ha]
    by_cases hb : acquired.isNone = true ∨ (cfg = "readonly" ∧ is_cached_attr_truthy = false)
    · rw [if_pos hb, hno e h1 h2]
      rfl
    · rw [if_neg hb]
      exact htail acquired [CacheAction.acquireFile]
  · rw [if_neg ha]
    exact htail prev []

theorem generic_entity_no_buffer_witness :
    demoGeneric.kind ≠ EntityKind.beamformerBase ∧
    demoGeneric.kind ≠ EntityKind.pointSpreadFunction ∧
    no_cache demoGeneric = Option.none ∧
    get_cache "all" demoGeneric (some demoFile) = Except.ok Option.none ∧
    ((handle_cache "all" demoGeneric Option.none (some demoFile)).1).map Prod.fst
      = Except.ok Option.none :=
  ⟨by decide, by decide,
    generic_entity_no_buffer.1 demoGeneric (by decide) (by decide),
    generic_entity_no_buffer.2.1 "all" demoGeneric (some demoFile) (by decide),
    generic_entity_no_buffer.2.2 "all" demoGeneric Option.none (some demoFile)
      (by decide) (by decide)⟩

/-- **C2** is falsified by the code: under policy `'none'`, caching is
inactive, the guarded block of `_get_bf_filecache` is skipped, and line 185
reads the never-assigned local `ac` — an `UnboundLocalError` — instead of
returning a transient array; `CacheObject.handle_cache` falls through to
`return self._get_cache()`, which dereferences `self.h5f = None` — an
`AttributeError` — for a beamformer entity.  The "no filesystem access" part
does hold: `get_cache_file` is never invoked (no `acquireFile` in the log). -/
theorem none_mode_crashes :
    (∀ (bf : BfEntity) (acquired : Option H5File),
      get_bf_filecache "none" bf acquired = Except.error CacheErr.unboundLocalError) ∧
    (∀ acquired : Option H5File,
      (handle_cache "none" demoEntity Option.none acquired).1
        = Except.error CacheErr.attributeError ∧
      CacheAction.acquireFile ∉ (handle_cache "none" demoEntity Option.none acquired).2) := by
  constructor
  · intro bf acquired
    unfold get_bf_filecache
    rw [if_neg (by simp)]
  · intro acquired
    constructor
    · rfl
    · rw [handle_cache_log]
      simp

/-! ### Allocation lemmas for `_get_bf_filecache` -/

lemma get_bf_filecache_some {cfg : String} {bf : BfEntity} (f : H5File)
    (hact : ¬ (cfg = "none" ∨ (cfg = "individual" ∧ bf.cached = false))) :
    get_bf_filecache cfg bf (some f) = get_bf_filecache_body cfg bf f := by
  unfold get_bf_filecache
  rw [if_pos hact]

/-- On a cache miss, `allocStep` creates the node with all the arrays of the
entity's schema, zero-initialised. -/
lemma allocStep_fresh (bf : BfEntity) (f : H5File) (nd : String)
    (hmiss : f.is_cached nd = false) :
    (allocStep bf f nd).is_cached nd = true ∧
    (allocStep bf f nd).get_data_by_reference "result" nd
      = some (Buf.ref nd "result") ∧
    (allocStep bf f nd).get_data_by_reference "freqs" nd
      = some (Buf.ref nd "freqs") ∧
    (bf.kind = BfKind.adaptiveGrid →
      (allocStep bf f nd).get_data_by_reference "gpos" nd
        = some (Buf.ref nd "gpos")) ∧
    (bf.kind ≠ BfKind.adaptiveGrid →
      (allocStep bf f nd).get_data_by_reference "gpos" nd = Option.none) ∧
    (∃ node : H5Node, (allocStep bf f nd).nodes nd = some node ∧
      node.arrays "freqs"
        = some ⟨[bf.numfreq], "int8", List.replicate (shapeSize [bf.numfreq]) 0⟩ ∧
      (bf.kind = BfKind.base → node.arrays "result"
        = some ⟨[bf.numfreq, bf.gridSize], bf.precision,
            List.replicate (shapeSize [bf.numfreq, bf.gridSize]) 0⟩) ∧
      (bf.kind = BfKind.sodix → node.arrays "result"
        = some ⟨[bf.numfreq, bf.gridSize * bf.numMics], bf.precision,
            List.replicate (shapeSize [bf.numfreq, bf.gridSize * bf.numMics]) 0⟩) ∧
      (bf.kind = BfKind.adaptiveGrid →
        node.arrays "result"
          = some ⟨[bf.numfreq, bf.size], bf.precision,
              List.replicate (shapeSize [bf.numfreq, bf.size]) 0⟩ ∧
        node.arrays "gpos"
          = some ⟨[3, bf.size], "float64",
              List.replicate (shapeSize [3, bf.size]) 0⟩)) := by
  cases hk : bf.kind with
  | base =>
    have hchain : allocStep bf f nd
        = ((f.create_new_group nd).create_compressible_array "freqs" [bf.numfreq]
            "int8" nd).create_compressible_array "result"
            [bf.numfreq, bf.gridSize] bf.precision nd := by
      unfold allocStep
      rw [if_neg (by simp [hmiss]), hk]
    have hnode : (allocStep bf f nd).nodes nd
        = some ((emptyNode.addArray "freqs" [bf.numfreq] "int8").addArray "result"
            [bf.numfreq, bf.gridSize] bf.precision) := by
      rw [hchain]
      simp [H5File.create_new_group, H5File.create_compressible_array]
    refine ⟨?_, ?_, ?_, by simp [hk], fun _ => ?_, _, hnode, ?_, fun _ => ?_,
      by simp [hk], by simp [hk]⟩ <;>
      simp [H5File.is_cached, H5File.get_data_by_reference, hnode, H5Node.addArray,
        emptyNode]
  | sodix =>
    have hchain : allocStep bf f nd
        = ((f.create_new_group nd).create_compressible_array "freqs" [bf.numfreq]
            "int8" nd).create_compressible_array "result"
            [bf.numfreq, bf.gridSize * bf.numMics] bf.precision nd := by
      unfold allocStep
      rw [if_neg (by simp [hmiss]), hk]
    have hnode : (allocStep bf f nd).nodes nd
        = some ((emptyNode.addArray "freqs" [bf.numfreq] "int8").addArray "result"
            [bf.numfreq, bf.gridSize * bf.numMics] bf.precision) := by
      rw [hchain]
      simp [H5File.create_new_group, H5File.create_compressible_array]
    refine ⟨?_, ?_, ?_, by simp [hk], fun _ => ?_, _, hnode, ?_, by simp [hk],
      fun _ => ?_, by simp [hk]⟩ <;>
      simp [H5File.is_cached, H5File.get_data_by_reference, hnode, H5Node.addArray,
        emptyNode]
  | adaptiveGrid =>
    have hchain : allocStep bf f nd
        = (((f.create_new_group nd).create_compressible_array "freqs" [bf.numfreq]
            "int8" nd).create_compressible_array "gpos" [3, bf.size] "float64"
            nd).create_compressible_array "result" [bf.numfreq, bf.size]
            bf.precision nd := by
      unfold allocStep
      rw [if_neg (by simp [hmiss]), hk]
    have hnode : (allocStep bf f nd).nodes nd
        = some (((emptyNode.addArray "freqs" [bf.numfreq] "int8").addArray "gpos"
            [3, bf.size] "float64").addArray "result" [bf.numfreq, bf.size]
            bf.precision) := by
      rw [hchain]
      simp [H5File.create_new_group, H5File.create_compressible_array]
    refine ⟨?_, ?_, ?_, fun _ => ?_, by simp [hk], _, hnode, ?_, by simp [hk],
      by simp [hk], fun _ => ⟨?_, ?_⟩⟩ <;>
      simp [H5File.is_cached, H5File.get_data_by_reference, hnode, H5Node.addArray,
        emptyNode]

/-- Under a policy other than `'overwrite'`, or with no node present, the
overwrite step leaves the file unchanged. -/
lemma overwriteStep_skip {cfg : String} {f : H5File} {nd : String}
    (h : ¬ (cfg = "overwrite" ∧ f.is_cached nd = true)) :
    overwriteStep cfg f nd = f := by
  unfold overwriteStep
  rw [if_neg h]

/-- **C3**: With result caching active, a policy other than `'readonly'`, a
file handle acquired and the node not yet cached, the file-cache routine
allocates the node and all of its named arrays per the entity's schema —
`freqs` (one `int8` per frequency bin) plus `result`, with the
variant-specific shapes: `gpos : 3 × size` and `result : numfreq × size` for
adaptive grids, `result : numfreq × (grid.size · num_mics)` for SODIX,
`result : numfreq × grid.size` otherwise — all zero-initialised ("not
cached"), and returns live references to the fresh arrays
(`bf._gpos` is assigned exactly for adaptive grids). -/
theorem fresh_alloc_schema (cfg : String) (bf : BfEntity) (f : H5File)
    (hact : ¬ (cfg = "none" ∨ (cfg = "individual" ∧ bf.cached = false)))
    (hnro : cfg ≠ "readonly")
    (hmiss : f.is_cached (bfNodename bf) = false) :
    ∃ r : BfCacheResult, get_bf_filecache cfg bf (some f) = Except.ok r ∧
      r.h5f = some (allocStep bf f (bfNodename bf)) ∧
      r.ac = some (Buf.ref (bfNodename bf) "result") ∧
      r.fr = some (Buf.ref (bfNodename bf) "freqs") ∧
      (r.gposSet = true ↔ bf.kind = BfKind.adaptiveGrid) ∧
      (allocStep bf f (bfNodename bf)).is_cached (bfNodename bf) = true ∧
      (∃ node : H5Node,
        (allocStep bf f (bfNodename bf)).nodes (bfNodename bf) = some node ∧
        node.arrays "freqs"
          = some ⟨[bf.numfreq], "int8", List.replicate (shapeSize [bf.numfreq]) 0⟩ ∧
        (bf.kind = BfKind.base → node.arrays "result"
          = some ⟨[bf.numfreq, bf.gridSize], bf.precision,
              List.replicate (shapeSize [bf.numfreq, bf.gridSize]) 0⟩) ∧
        (bf.kind = BfKind.sodix → node.arrays "result"
          = some ⟨[bf.numfreq, bf.gridSize * bf.numMics], bf.precision,
              List.replicate (shapeSize [bf.numfreq, bf.gridSize * bf.numMics]) 0⟩) ∧
        (bf.kind = BfKind.adaptiveGrid →
          node.arrays "result"
            = some ⟨[bf.numfreq, bf.size], bf.precision,
                List.replicate (shapeSize [bf.numfreq, bf.size]) 0⟩ ∧
          node.arrays "gpos"
            = some ⟨[3, bf.size], "float64",
                List.replicate (shapeSize [3, bf.size]) 0⟩)) := by
  obtain ⟨hc, hres, hfrq, hgy, hgn, node, hnode, hfr2, hbase, hsodix, hgrid⟩ :=
    allocStep_fresh bf f (bfNodename bf) hmiss
  have hover : overwriteStep cfg f (bfNodename bf) = f :=
    overwriteStep_skip (by simp [hmiss])
  have hskip : ¬ (cfg = "readonly" ∧ ¬ f.is_cached (bfNodename bf) = true) := by
    intro h
    exact hnro h.1
  have heval : get_bf_filecache cfg bf (some f)
      = get_bf_filecache_finish cfg (allocStep bf f (bfNodename bf))
          (some (Buf.ref (bfNodename bf) "result"))
          (some (Buf.ref (bfNodename bf) "freqs"))
          (if bf.kind = BfKind.adaptiveGrid then
            (allocStep bf f (bfNodename bf)).get_data_by_reference "gpos"
              (bfNodename bf)
          else Option.none) := by
    rw [get_bf_filecache_some f hact]
    unfold get_bf_filecache_body
    rw [if_neg hskip, hover, hres, hfrq]
  have hfin : get_bf_filecache_finish cfg (allocStep bf f (bfNodename bf))
      (some (Buf.ref (bfNodename bf) "result"))
      (some (Buf.ref (bfNodename bf) "freqs"))
      (if bf.kind = BfKind.adaptiveGrid then
        (allocStep bf f (bfNodename bf)).get_data_by_reference "gpos"
          (bfNodename bf)
      else Option.none)
      = Except.ok ⟨some (allocStep bf f (bfNodename bf)),
          some (Buf.ref (bfNodename bf) "result"),
          some (Buf.ref (bfNodename bf) "freqs"),
          (if bf.kind = BfKind.adaptiveGrid then
            (allocStep bf f (bfNodename bf)).get_data_by_reference "gpos"
              (bfNodename bf)
          else Option.none).isSome⟩ := by
    unfold get_bf_filecache_finish
    rw [if_neg (by intro h; exact hnro h.2.2)]
  refine ⟨_, by rw [heval, hfin], rfl, rfl, rfl, ?_, hc, node, hnode, hfr2,
    hbase, hsodix, hgrid⟩
  by_cases hk : bf.kind = BfKind.adaptiveGrid
  · simp only [hk, if_pos]
    rw [hgy hk]
    simp [hk]
  · rw [if_neg hk]
    simp [hk]

theorem fresh_alloc_schema_witness :
    ¬ (("all" : String) = "none"
        ∨ (("all" : String) = "individual" ∧ demoBf.cached = false)) ∧
    ("all" : String) ≠ "readonly" ∧
    emptyFile.is_cached (bfNodename demoBf) = false ∧
    (∃ r : BfCacheResult,
      get_bf_filecache "all" demoBf (some emptyFile) = Except.ok r ∧
      r.ac = some (Buf.ref (bfNodename demoBf) "result") ∧
      r.fr = some (Buf.ref (bfNodename demoBf) "freqs")) := by
  refine ⟨by decide, by decide, rfl, ?_⟩
  obtain ⟨r, h1, _, h3, h4, _⟩ :=
    fresh_alloc_schema "all" demoBf emptyFile (by decide) (by decide) rfl
  exact ⟨r, h1, h3, h4⟩

/-- **C4**: Under `'readonly'` with the node present in the backing file, the
returned buffers are detached copies (`ac[:]`, `fr[:]`) of the stored arrays:
the file itself is returned unchanged, and writing through the returned copy
leaves the file — in particular the persisted node — untouched.  The same
holds for `CacheObject._get_cache` on a beamformer entity. -/
theorem readonly_detached (bf : BfEntity) (f : H5File) (node : H5Node)
    (resArr frArr : H5Array)
    (hnode : f.nodes (bfNodename bf) = some node)
    (hres : node.arrays "result" = some resArr)
    (hfr : node.arrays "freqs" = some frArr) :
    (∃ r : BfCacheResult, get_bf_filecache "readonly" bf (some f) = Except.ok r ∧
      r.h5f = some f ∧
      r.ac = some (Buf.copy resArr.data) ∧
      r.fr = some (Buf.copy frArr.data)) ∧
    (∀ newData, writeBuf f (Buf.copy resArr.data) newData = f) ∧
    (∀ newData,
      (writeBuf f (Buf.copy resArr.data) newData).nodes (bfNodename bf)
        = some node) ∧
    (∀ ent : Entity, ent.kind = EntityKind.beamformerBase →
      f.nodes (get_nodename ent) = some node →
      get_cache "readonly" ent (some f)
        = Except.ok (some (Buf.copy resArr.data, Buf.copy frArr.data)) ∧
      (∀ newData, writeBuf f (Buf.copy frArr.data) newData = f)) := by
  have hcached : f.is_cached (bfNodename bf) = true := by
    simp [H5File.is_cached, hnode]
  have hover : overwriteStep "readonly" f (bfNodename bf) = f :=
    overwriteStep_skip (by simp)
  have halloc : allocStep bf f (bfNodename bf) = f := by
    unfold allocStep
    rw [if_pos hcached]
  have hgetr : f.get_data_by_reference "result" (bfNodename bf)
      = some (Buf.ref (bfNodename bf) "result") := by
    simp [H5File.get_data_by_reference, hnode, hres]
  have hgetf : f.get_data_by_reference "freqs" (bfNodename bf)
      = some (Buf.ref (bfNodename bf) "freqs") := by
    simp [H5File.get_data_by_reference, hnode, hfr]
  have hreadr : f.readArr (bfNodename bf) "result" = resArr.data := by
    simp [H5File.readArr, hnode, hres]
  have hreadf : f.readArr (bfNodename bf) "freqs" = frArr.data := by
    simp [H5File.readArr, hnode, hfr]
  refine ⟨?_, fun _ => rfl, fun _ => hnode, ?_⟩
  · have heval : get_bf_filecache "readonly" bf (some f)
        = get_bf_filecache_finish "readonly" f
            (some (Buf.ref (bfNodename bf) "result"))
            (some (Buf.ref (bfNodename bf) "freqs"))
            (if bf.kind = BfKind.adaptiveGrid then
              f.get_data_by_reference "gpos" (bfNodename bf)
            else Option.none) := by
      rw [get_bf_filecache_some f (by simp)]
      unfold get_bf_filecache_body
      rw [if_neg (by simp [hcached]), hover, halloc, hgetr, hgetf]
    have e1 : (some (Buf.ref (bfNodename bf) "result")).map (detachB f)
        = some (Buf.copy resArr.data) := by
      show some (detachB f (Buf.ref (bfNodename bf) "result")) = _
      rw [show detachB f (Buf.ref (bfNodename bf) "result")
        = Buf.copy (f.readArr (bfNodename bf) "result") from rfl, hreadr]
    have e2 : (some (Buf.ref (bfNodename bf) "freqs")).map (detachB f)
        = some (Buf.copy frArr.data) := by
      show some (detachB f (Buf.ref (bfNodename bf) "freqs")) = _
      rw [show detachB f (Buf.ref (bfNodename bf) "freqs")
        = Buf.copy (f.readArr (bfNodename bf) "freqs") from rfl, hreadf]
    have hfin : get_bf_filecache "readonly" bf (some f)
        = Except.ok ⟨some f, some (Buf.copy resArr.data),
            some (Buf.copy frArr.data),
            (if bf.kind = BfKind.adaptiveGrid then
              f.get_data_by_reference "gpos" (bfNodename bf)
            else Option.none).isSome⟩ := by
      rw [heval]
      unfold get_bf_filecache_finish
      rw [if_pos ⟨rfl, rfl, rfl⟩, e1, e2]
    exact ⟨_, hfin, rfl, rfl, rfl⟩
  · intro ent hk hnode2
    refine ⟨?_, fun _ => rfl⟩
    have hgr : f.get_data_by_reference "result" (get_nodename ent)
        = some (Buf.ref (get_nodename ent) "result") := by
      simp [H5File.get_data_by_reference, hnode2, hres]
    have hgf : f.get_data_by_reference "freqs" (get_nodename ent)
        = some (Buf.ref (get_nodename ent) "freqs") := by
      simp [H5File.get_data_by_reference, hnode2, hfr]
    have h1 : detachB f (Buf.ref (get_nodename ent) "result")
        = Buf.copy resArr.data := by
      rw [show detachB f (Buf.ref (get_nodename ent) "result")
        = Buf.copy (f.readArr (get_nodename ent) "result") from rfl]
      simp [H5File.readArr, hnode2, hres]
    have h2 : detachB f (Buf.ref (get_nodename ent) "freqs")
        = Buf.copy frArr.data := by
      rw [show detachB f (Buf.ref (get_nodename ent) "freqs")
        = Buf.copy (f.readArr (get_nodename ent) "freqs") from rfl]
      simp [H5File.readArr, hnode2, hfr]
    unfold get_cache
    rw [if_pos hk]
    show (match f.get_data_by_reference "result" (get_nodename ent),
          f.get_data_by_reference "freqs" (get_nodename ent) with
      | some ac, some fr =>
        if ("readonly" : String) = "readonly" then
          Except.ok (some (detachB f ac, detachB f fr))
        else Except.ok (some (ac, fr))
      | _, _ => Except.error CacheErr.noSuchNode)
      = Except.ok (some (Buf.copy resArr.data, Buf.copy frArr.data))
    rw [hgr, hgf]
    show Except.ok (some (detachB f (Buf.ref (get_nodename ent) "result"),
        detachB f (Buf.ref (get_nodename ent) "freqs")))
      = Except.ok (some (Buf.copy resArr.data, Buf.copy frArr.data))
    rw [h1, h2]

theorem readonly_detached_witness :
    demoFile.nodes (bfNodename demoBf) = some demoNode ∧
    demoNode.arrays "result"
      = some ⟨[3, 4], "float64", [1, 2, 3, 4, 5, 6, 7, 8, 9, 10, 11, 12]⟩ ∧
    demoNode.arrays "freqs" = some ⟨[3], "int8", [1, 1, 0]⟩ ∧
    (∃ r : BfCacheResult,
      get_bf_filecache "readonly" demoBf (some demoFile) = Except.ok r ∧
      r.h5f = some demoFile ∧
      r.ac = some (Buf.copy [1, 2, 3, 4, 5, 6, 7, 8, 9, 10, 11, 12]) ∧
      r.fr = some (Buf.copy [1, 1, 0])) ∧
    (∀ newData,
      writeBuf demoFile (Buf.copy [1, 2, 3, 4, 5, 6, 7, 8, 9, 10, 11, 12]) newData
        = demoFile) := by
  refine ⟨rfl, rfl, rfl, ?_, ?_⟩
  · exact (readonly_detached demoBf demoFile demoNode _ _ rfl rfl rfl).1
  · exact (readonly_detached demoBf demoFile demoNode _ _ rfl rfl rfl).2.1

/-- **C5**: Under `'overwrite'` with the node present, the file-cache routine
deletes the node's data before reallocating: immediately after the removal
step the node is absent; the call then repopulates it fresh (the node is
cached again in the resulting file, with live references returned); and
invoking the removal step again on any state where the node is cached —
in particular the state the call just produced — deletes it first again. -/
theorem overwrite_removes_first (bf : BfEntity) (f : H5File)
    (hcached : f.is_cached (bfNodename bf) = true) :
    overwriteStep "overwrite" f (bfNodename bf) = f.remove_data (bfNodename bf) ∧
    (overwriteStep "overwrite" f (bfNodename bf)).is_cached (bfNodename bf)
      = false ∧
    (∃ r : BfCacheResult, get_bf_filecache "overwrite" bf (some f) = Except.ok r ∧
      r.h5f = some (allocStep bf (f.remove_data (bfNodename bf)) (bfNodename bf)) ∧
      (allocStep bf (f.remove_data (bfNodename bf)) (bfNodename bf)).is_cached
        (bfNodename bf) = true ∧
      r.ac = some (Buf.ref (bfNodename bf) "result") ∧
      r.fr = some (Buf.ref (bfNodename bf) "freqs")) ∧
    (∀ g : H5File, g.is_cached (bfNodename bf) = true →
      (overwriteStep "overwrite" g (bfNodename bf)).is_cached (bfNodename bf)
        = false) := by
  have hgen : ∀ g : H5File, g.is_cached (bfNodename bf) = true →
      (overwriteStep "overwrite" g (bfNodename bf)).is_cached (bfNodename bf)
        = false := by
    intro g hg
    unfold overwriteStep
    rw [if_pos ⟨rfl, hg⟩]
    simp [H5File.is_cached, H5File.remove_data]
  have hstep : overwriteStep "overwrite" f (bfNodename bf)
      = f.remove_data (bfNodename bf) := by
    unfold overwriteStep
    rw [if_pos ⟨rfl, hcached⟩]
  have hmiss : (f.remove_data (bfNodename bf)).is_cached (bfNodename bf)
      = false := by
    simp [H5File.is_cached, H5File.remove_data]
  obtain ⟨hc, hres, hfrq, _, _, _, _⟩ :=
    allocStep_fresh bf (f.remove_data (bfNodename bf)) (bfNodename bf) hmiss
  refine ⟨hstep, by rw [hstep]; exact hmiss, ?_, hgen⟩
  have heval : get_bf_filecache "overwrite" bf (some f)
      = get_bf_filecache_finish "overwrite"
          (allocStep bf (f.remove_data (bfNodename bf)) (bfNodename bf))
          (some (Buf.ref (bfNodename bf) "result"))
          (some (Buf.ref (bfNodename bf) "freqs"))
          (if bf.kind = BfKind.adaptiveGrid then
            (allocStep bf (f.remove_data (bfNodename bf))
              (bfNodename bf)).get_data_by_reference "gpos" (bfNodename bf)
          else Option.none) := by
    rw [get_bf_filecache_some f (by simp)]
    unfold get_bf_filecache_body
    rw [if_neg (by simp), hstep, hres, hfrq]
  have hfin : get_bf_filecache "overwrite" bf (some f)
      = Except.ok ⟨some (allocStep bf (f.remove_data (bfNodename bf)) (bfNodename bf)),
          some (Buf.ref (bfNodename bf) "result"),
          some (Buf.ref (bfNodename bf) "freqs"),
          (if bf.kind = BfKind.adaptiveGrid then
            (allocStep bf (f.remove_data (bfNodename bf))
              (bfNodename bf)).get_data_by_reference "gpos" (bfNodename bf)
          else Option.none).isSome⟩ := by
    rw [heval]
    unfold get_bf_filecache_finish
    rw [if_neg (by intro h; exact absurd h.2.2 (by decide))]
  exact ⟨_, hfin, rfl, hc, rfl, rfl⟩

theorem overwrite_removes_first_witness :
    demoFile.is_cached (bfNodename demoBf) = true ∧
    (overwriteStep "overwrite" demoFile (bfNodename demoBf)).is_cached
      (bfNodename demoBf) = false ∧
    (∃ r : BfCacheResult,
      get_bf_filecache "overwrite" demoBf (some demoFile) = Except.ok r ∧
      r.ac = some (Buf.ref (bfNodename demoBf) "result")) := by
  refine ⟨rfl, ?_, ?_⟩
  · exact (overwrite_removes_first demoBf demoFile rfl).2.1
  · obtain ⟨r, h1, _, _, h4, _⟩ := (overwrite_removes_first demoBf demoFile rfl).2.2.1
    exact ⟨r, h1, h4⟩

lemma twoDigits_length_lt100 : ∀ m : Fin 100, (twoDigits m.val).length = 2 := by
  decide

/-- **C8**: The storage node name is the concatenation of the entity's type
tag (class name) with its digest key — both in `CacheObject._get__nodename`
and in `_get_bf_filecache` (`bfNodename`) — except for `PointSpreadFunction`
entities, whose node name is the fixed-point format of the target frequency:
`Hz_<int>_<2 fractional digits>`, with the two fractional digits always
present (zero-padded) and an underscore in place of the locale-independent
decimal point that `'%.2f'` prints. -/
theorem nodename_format (e : Entity) :
    (e.kind ≠ EntityKind.pointSpreadFunction →
      get_nodename e = e.className ++ e.digest) ∧
    (e.kind = EntityKind.pointSpreadFunction →
      get_nodename e = "Hz_" ++ toString (e.freqCenti / 100) ++ "_"
        ++ twoDigits (e.freqCenti % 100) ∧
      (twoDigits (e.freqCenti % 100)).length = 2) ∧
    (∀ bf : BfEntity, bfNodename bf = bf.className ++ bf.digest) := by
  refine ⟨?_, ?_, fun _ => rfl⟩
  · intro h
    unfold get_nodename
    rw [if_neg h]
  · intro h
    refine ⟨?_, ?_⟩
    · unfold get_nodename
      rw [if_pos h]
    · exact twoDigits_length_lt100 ⟨e.freqCenti % 100, Nat.mod_lt _ (by norm_num)⟩

theorem nodename_format_witness :
    demoPsf.kind = EntityKind.pointSpreadFunction ∧
    (get_nodename demoPsf = "Hz_" ++ toString (demoPsf.freqCenti / 100) ++ "_"
        ++ twoDigits (demoPsf.freqCenti % 100) ∧
      (twoDigits (demoPsf.freqCenti % 100)).length = 2) ∧
    get_nodename demoPsf = "Hz_1234_56" ∧
    demoEntity.kind ≠ EntityKind.pointSpreadFunction ∧
    get_nodename demoEntity = demoEntity.className ++ demoEntity.digest :=
  ⟨rfl, (nodename_format demoPsf).2.1 rfl, by decide, by decide,
    (nodename_format demoEntity).1 (by decide)⟩

end Acoular
